import Mathlib

/-!
Shallow embedding of the Feebdack application's core logic: the OTP-based
passwordless authentication flow (signup/signin request and verify routes),
the feedback sharing flow (sharing with developers, developer actions) and
the workspace-scoped feedback listing.

The persistence store is modelled as lists of rows (one list per table).
Time is a natural number of minutes since an arbitrary epoch; the code's
`datetime.utcnow()` becomes an explicit `now` parameter.  Randomness
(`generate_otp`, `bcrypt.gensalt`) becomes explicit `otp`/`salt` parameters.
Autoincrement primary keys are drawn from a `nextId` counter.  A value stored
in the `otp_code` column is either a bcrypt hash of a code with a salt
(`StoredCode.hashed`) or a plaintext code (`StoredCode.plain`); the routes
store hashes via `bcrypt.hashpw` while the (unreachable) service-layer
helpers store the plaintext string returned by `generate_otp`.
-/

set_option linter.unusedVariables false

/-- Time in minutes, mirroring the minute-granularity constants of the code. -/
abbrev Time := Nat

/-- Constant MAX_OTP_RESEND from routes.py. -/
def MAX_OTP_RESEND : Nat := 3

/-- Constant MAX_OTP_ATTEMPTS from routes.py. -/
def MAX_OTP_ATTEMPTS : Nat := 5

/-- Constant OTP_VALIDITY_MINUTES from routes.py. -/
def OTP_VALIDITY_MINUTES : Nat := 5

/-- Constant LOCK_DURATION_MINUTES from routes.py. -/
def LOCK_DURATION_MINUTES : Nat := 30

/-- Offset of the fixed civil timezone Asia/Kolkata (IST) over UTC, minutes. -/
def IST_OFFSET_MINUTES : Nat := 330

/-- Value stored in the otp_code column: either a bcrypt hash of a code under
a salt, or the plaintext code itself. -/
inductive StoredCode where
  | hashed (code : Nat) (salt : Nat)
  | plain (code : Nat)
deriving Repr, DecidableEq

/-- Model of bcrypt.checkpw: a submitted code matches a stored bcrypt hash
iff it equals the hashed code (bcrypt verification is deterministic given the
salt embedded in the hash).  A stored plaintext value is not a valid bcrypt
hash, so checkpw cannot succeed on it. -/
def checkpw (code : Nat) (stored : StoredCode) : Bool :=
  match stored with
  | .hashed c _ => code == c
  | .plain _ => false

/-- Row of the users table (models/user.py). -/
structure User where
  id : Nat
  email : String
  full_name : Option String
  onboarded : Bool
deriving Repr, DecidableEq

/-- Row of the otp table (models/otp.py, class OTP_Tbl). -/
structure OTP_Tbl where
  email : String
  otp_code : StoredCode
  full_name : Option String
  created_at : Time
  attempts : Nat
  resend_count : Nat
  locked_until : Option Time
deriving Repr, DecidableEq

/-- Row of the collaborator table (models/collaborators.py). -/
structure Collaborator where
  user_id : Option Nat
  user_email : String
  access_type : String
  workspace_id : Nat
  invited_by_id : Option Nat
deriving Repr, DecidableEq

/-- Row of the workspaces table (models/workspace.py); only the fields the
verified operations read. -/
structure Workspace where
  id : Nat
  owner_id : Nat
deriving Repr, DecidableEq

/-- Feedback status enum (models/feedback.py). -/
inductive FeedbackStatus where
  | draft
  | sent
  | edited
deriving Repr, DecidableEq

/-- Row of the feedback table (models/feedback.py). -/
structure Feedback where
  id : Nat
  name : String
  created_by : Nat
  status : FeedbackStatus
  url : Option String
  screenshot_url : Option String
  recording_url : Option String
  voice_recording_url : Option String
  message : Option String
  developer_email : Option String
  workspace_id : Nat
deriving Repr, DecidableEq

/-- Row of the developers table (models/developer.py). -/
structure Developer where
  id : Nat
  email : String
  workspace_id : Option Nat
  invited_by_workspace_id : Option Nat
deriving Repr, DecidableEq

/-- Feedback-developer link status enum (models/feedback_developer.py). -/
inductive FeedbackDeveloperStatus where
  | pending
  | acknowledged
  | unclear
deriving Repr, DecidableEq

/-- Row of the feedback_developer table (models/feedback_developer.py). -/
structure FeedbackDeveloper where
  feedback_id : Nat
  developer_id : Nat
  status : FeedbackDeveloperStatus
  action_time : Option Time
deriving Repr, DecidableEq

/-- Row of the feedback_access table (models/feedback_access.py). -/
structure FeedbackAccess where
  feedback_id : Nat
  user_id : Option Nat
  user_email : String
deriving Repr, DecidableEq

/-- The persistence store: one list of rows per table, plus the counter
feeding autoincrement primary keys. -/
structure DB where
  users : List User
  otps : List OTP_Tbl
  collaborators : List Collaborator
  workspaces : List Workspace
  feedbacks : List Feedback
  developers : List Developer
  feedback_developers : List FeedbackDeveloper
  feedback_accesses : List FeedbackAccess
  nextId : Nat
deriving Repr, DecidableEq

/-- Abstract error kinds raised by the operations (the HTTPException paths). -/
inductive ApiError where
  | userAlreadyExists
  | noOtpRequest
  | locked
  | otpExpired
  | incorrectOtp
  | userNotFoundOrNotInvited
  | resendLimit
  | userDoesNotExist
  | feedbackNotFound
  | workspaceNotFound
  | noAccess
  | notCreator
  | cannotUpdateSent
  | cannotDeleteSent
  | developerNotFound
  | developerNotLinked
  | invalidAction
deriving Repr, DecidableEq

/-- Boolean success test for operation results. -/
def resultOk {α : Type} : Except ApiError α → Bool
  | .ok _ => true
  | .error _ => false

/-- SQLAlchemy mutation of the first row matching a predicate (the row
returned by query(...).first()). -/
def updateFirst {α : Type} (p : α → Bool) (f : α → α) : List α → List α
  | [] => []
  | x :: xs => if p x then f x :: xs else x :: updateFirst p f xs

/-- SQLAlchemy db.delete of the first row matching a predicate. -/
def removeFirst {α : Type} (p : α → Bool) : List α → List α
  | [] => []
  | x :: xs => if p x then xs else x :: removeFirst p xs

/-- db.query(User).filter_by(email=email).first() -/
def findUser (db : DB) (email : String) : Option User :=
  db.users.find? (fun u => u.email == email)

/-- db.query(OTP_Tbl).filter_by(email=email).first() -/
def findOtp (db : DB) (email : String) : Option OTP_Tbl :=
  db.otps.find? (fun r => r.email == email)

/-- db.query(Feedback).filter_by(id=feedback_id).first() -/
def findFeedback (db : DB) (feedback_id : Nat) : Option Feedback :=
  db.feedbacks.find? (fun f => f.id == feedback_id)

/-- db.query(Workspace).filter_by(id=workspace_id).first() -/
def findWorkspace (db : DB) (workspace_id : Nat) : Option Workspace :=
  db.workspaces.find? (fun w => w.id == workspace_id)

/-- db.query(Developer).filter_by(email=email).first() -/
def findDeveloper (db : DB) (email : String) : Option Developer :=
  db.developers.find? (fun d => d.email == email)

/-- db.query(FeedbackDeveloper).filter_by(feedback_id=..., developer_id=...).first() -/
def findLink (db : DB) (fid did : Nat) : Option FeedbackDeveloper :=
  db.feedback_developers.find? (fun l => l.feedback_id == fid && l.developer_id == did)

/-- The check otp_record.locked_until and otp_record.locked_until > utcnow(). -/
def isLockedAt (r : OTP_Tbl) (now : Time) : Bool :=
  match r.locked_until with
  | some t => now < t
  | none => false

/-! ### Authentication routes (src/api/v1/auth/routes.py) -/

/-- Route POST /auth/signup/request (routes.py lines 40-62): rejects when a
user already exists, otherwise deletes every OTP row for the email and
inserts a fresh record holding the bcrypt hash of the generated code, with
attempts 0, resend_count 1 and no lockout. -/
def signup_request (db : DB) (now : Time) (email full_name : String)
    (otp salt : Nat) : Except ApiError Unit × DB :=
  match findUser db email with
  | some _ => (.error .userAlreadyExists, db)
  | none =>
    let hashed_otp := StoredCode.hashed otp salt
    let remaining := db.otps.filter (fun r => !(r.email == email))
    let record : OTP_Tbl :=
      { email := email, otp_code := hashed_otp, full_name := some full_name,
        created_at := now, attempts := 0, resend_count := 1, locked_until := none }
    (.ok (), { db with otps := remaining ++ [record] })

/-- The record lookup, lockout, expiry and code checks shared verbatim by the
two verify routes (routes.py lines 66-83 and 157-174).  On success it returns
the matched record with the store untouched; the flow-specific tail of each
route then runs. -/
def otp_precheck (db : DB) (now : Time) (email : String) (otp : Nat) :
    Except ApiError OTP_Tbl × DB :=
  match findOtp db email with
  | none => (.error .noOtpRequest, db)
  | some record =>
    if isLockedAt record now then (.error .locked, db)
    else if record.created_at + OTP_VALIDITY_MINUTES < now then
      (.error .otpExpired,
        { db with otps := removeFirst (fun r => r.email == email) db.otps })
    else if !checkpw otp record.otp_code then
      let attempts := record.attempts + 1
      let locked_until :=
        if MAX_OTP_ATTEMPTS ≤ attempts then some (now + LOCK_DURATION_MINUTES)
        else record.locked_until
      let otps' := updateFirst (fun r => r.email == email)
        (fun _ => { record with attempts := attempts, locked_until := locked_until })
        db.otps
      (.error .incorrectOtp, { db with otps := otps' })
    else (.ok record, db)

/-- Successful outcomes of the signup verify route. -/
inductive SignupVerifyOk where
  | alreadyRegistered (user_id : Nat)
  | signedUp (user_id : Nat)
deriving Repr, DecidableEq

/-- Route POST /auth/signup/verify (routes.py lines 64-107). -/
def signup_verify (db : DB) (now : Time) (email : String) (otp : Nat) :
    Except ApiError SignupVerifyOk × DB :=
  match otp_precheck db now email otp with
  | (.error e, db') => (.error e, db')
  | (.ok record, db') =>
    match findUser db' email with
    | some existing_user =>
      (.ok (.alreadyRegistered existing_user.id),
        { db' with otps := removeFirst (fun r => r.email == email) db'.otps })
    | none =>
      let user : User :=
        { id := db'.nextId, email := email, full_name := record.full_name,
          onboarded := false }
      let users' := db'.users ++ [user]
      let otps' := removeFirst (fun r => r.email == email) db'.otps
      (.ok (.signedUp user.id),
        { db' with users := users', otps := otps', nextId := db'.nextId + 1 })

/-- Route POST /auth/signin/verify (routes.py lines 155-189): after the
common prechecks it requires a User row, failing with 404 (and keeping the
record) otherwise; on success it deletes the record and returns the user id
bound into the token. -/
def signin_verify (db : DB) (now : Time) (email : String) (otp : Nat) :
    Except ApiError Nat × DB :=
  match otp_precheck db now email otp with
  | (.error e, db') => (.error e, db')
  | (.ok _, db') =>
    match findUser db' email with
    | none => (.error .userDoesNotExist, db')
    | some user =>
      (.ok user.id,
        { db' with otps := removeFirst (fun r => r.email == email) db'.otps })

/-- OTP issuance half of the signin request route (routes.py lines 130-150):
refresh the existing record unless its resend counter reached the limit,
otherwise insert a fresh record; either way the stored code is a bcrypt hash. -/
def signin_issue_otp (db : DB) (now : Time) (email : String) (otp salt : Nat) :
    Except ApiError Unit × DB :=
  match findOtp db email with
  | some otp_record =>
    if MAX_OTP_RESEND ≤ otp_record.resend_count then (.error .resendLimit, db)
    else
      let otps' := updateFirst (fun r => r.email == email)
        (fun _ =>
          { otp_record with
            otp_code := StoredCode.hashed otp salt
            resend_count := otp_record.resend_count + 1
            created_at := now }) db.otps
      (.ok (), { db with otps := otps' })
  | none =>
    let fresh : OTP_Tbl :=
      { email := email, otp_code := StoredCode.hashed otp salt,
        full_name := none, created_at := now, attempts := 0,
        resend_count := 1, locked_until := none }
    (.ok (), { db with otps := db.otps ++ [fresh] })

/-- Route POST /auth/signin/request (routes.py lines 109-153): a missing user
is auto-provisioned when a collaborator invitation matches the email (and the
invitation is linked to the new user id), then the OTP record is created or
refreshed subject to the resend limit. -/
def signin_request (db : DB) (now : Time) (email : String) (otp salt : Nat) :
    Except ApiError Unit × DB :=
  match findUser db email with
  | some _ => signin_issue_otp db now email otp salt
  | none =>
    match db.collaborators.find? (fun c => c.user_email == email) with
    | none => (.error .userNotFoundOrNotInvited, db)
    | some _ =>
      let user : User :=
        { id := db.nextId, email := email, full_name := some "Invited User",
          onboarded := true }
      let collaborators' := updateFirst (fun c => c.user_email == email)
        (fun c => { c with user_id := some user.id }) db.collaborators
      let db1 :=
        { db with
          users := db.users ++ [user]
          nextId := db.nextId + 1
          collaborators := collaborators' }
      signin_issue_otp db1 now email otp salt

/-! ### Service-layer OTP helpers (src/api/v1/auth/services.py)

These two functions are not called by any route, but they are part of the
repository: unlike the routes, they assign the plaintext string returned by
generate_otp directly to the otp_code column. -/

/-- services.py request_signup_otp (lines 45-76): stores the plaintext code. -/
def request_signup_otp (db : DB) (now : Time) (email full_name : String)
    (otp : Nat) : Except ApiError Unit × DB :=
  match findUser db email with
  | some _ => (.error .userAlreadyExists, db)
  | none =>
    match findOtp db email with
    | some record =>
      if 3 ≤ record.resend_count then (.error .resendLimit, db)
      else
        let otps' := updateFirst (fun r => r.email == email)
          (fun _ =>
            { record with
              otp_code := StoredCode.plain otp
              created_at := now
              full_name := some full_name
              resend_count := record.resend_count + 1 }) db.otps
        (.ok (), { db with otps := otps' })
    | none =>
      let fresh : OTP_Tbl :=
        { email := email, otp_code := StoredCode.plain otp,
          full_name := some full_name, created_at := now, attempts := 0,
          resend_count := 1, locked_until := none }
      (.ok (), { db with otps := db.otps ++ [fresh] })

/-- services.py request_signin_otp (lines 118-169): stores the plaintext code. -/
def request_signin_otp (db : DB) (now : Time) (email : String) (otp : Nat) :
    Except ApiError Unit × DB :=
  match findUser db email with
  | some _ =>
    match findOtp db email with
    | some record =>
      if 3 ≤ record.resend_count then (.error .resendLimit, db)
      else
        let otps' := updateFirst (fun r => r.email == email)
          (fun _ =>
            { record with
              otp_code := StoredCode.plain otp
              created_at := now
              resend_count := record.resend_count + 1 }) db.otps
        (.ok (), { db with otps := otps' })
    | none =>
      let fresh : OTP_Tbl :=
        { email := email, otp_code := StoredCode.plain otp,
          full_name := none, created_at := now, attempts := 0,
          resend_count := 1, locked_until := none }
      (.ok (), { db with otps := db.otps ++ [fresh] })
  | none =>
    match db.collaborators.find? (fun c => c.user_email == email) with
    | none => (.error .userNotFoundOrNotInvited, db)
    | some _ =>
      let user : User :=
        { id := db.nextId, email := email, full_name := some "Invited User",
          onboarded := true }
      let collaborators' := updateFirst (fun c => c.user_email == email)
        (fun c => { c with user_id := some user.id }) db.collaborators
      let db1 :=
        { db with
          users := db.users ++ [user]
          nextId := db.nextId + 1
          collaborators := collaborators' }
      match findOtp db1 email with
      | some record =>
        if 3 ≤ record.resend_count then (.error .resendLimit, db1)
        else
          let otps' := updateFirst (fun r => r.email == email)
            (fun _ =>
              { record with
                otp_code := StoredCode.plain otp
                created_at := now
                resend_count := record.resend_count + 1 }) db1.otps
          (.ok (), { db1 with otps := otps' })
      | none =>
        let fresh : OTP_Tbl :=
          { email := email, otp_code := StoredCode.plain otp,
            full_name := none, created_at := now, attempts := 0,
            resend_count := 1, locked_until := none }
        (.ok (), { db1 with otps := db1.otps ++ [fresh] })

/-! ### Feedback services (src/api/v1/auth/services.py) -/

/-- Pydantic FeedbackUpdate schema (schemas.py): none means the field was not
supplied (exclude_unset). -/
structure FeedbackUpdate where
  name : Option String := none
  url : Option String := none
  message : Option String := none
  status : Option FeedbackStatus := none
  voice_recording_url : Option String := none
  screenshot_url : Option String := none
  recording_url : Option String := none
deriving Repr, DecidableEq

/-- setattr loop of update_feedback: overwrite exactly the supplied fields. -/
def apply_feedback_update (fb : Feedback) (d : FeedbackUpdate) : Feedback :=
  { fb with
    name := d.name.getD fb.name,
    url := match d.url with | some u => some u | none => fb.url,
    message := match d.message with | some m => some m | none => fb.message,
    status := d.status.getD fb.status,
    voice_recording_url :=
      match d.voice_recording_url with | some v => some v | none => fb.voice_recording_url,
    screenshot_url :=
      match d.screenshot_url with | some s => some s | none => fb.screenshot_url,
    recording_url :=
      match d.recording_url with | some r => some r | none => fb.recording_url }

/-- services.py update_feedback (lines 519-571): 404 on a missing feedback or
workspace, 403 unless the caller owns the workspace or is a collaborator on
it, 400 on sent feedback, otherwise the supplied fields are written. -/
def update_feedback (db : DB) (feedback_id : Nat) (data : FeedbackUpdate)
    (user_id : Nat) : Except ApiError Feedback × DB :=
  match findFeedback db feedback_id with
  | none => (.error .feedbackNotFound, db)
  | some feedback =>
    match findWorkspace db feedback.workspace_id with
    | none => (.error .workspaceNotFound, db)
    | some workspace =>
      if workspace.owner_id != user_id &&
          (db.collaborators.find? (fun c =>
            c.workspace_id == feedback.workspace_id &&
            c.user_id == some user_id)).isNone then
        (.error .noAccess, db)
      else if feedback.status == FeedbackStatus.sent then
        (.error .cannotUpdateSent, db)
      else
        let fb' := apply_feedback_update feedback data
        let feedbacks' :=
          updateFirst (fun f => f.id == feedback_id) (fun _ => fb') db.feedbacks
        (.ok fb', { db with feedbacks := feedbacks' })

/-- services.py delete_feedback (lines 574-602): 404 on a missing feedback,
403 unless the caller created it, 400 on sent feedback, otherwise the row is
deleted. -/
def delete_feedback (db : DB) (feedback_id : Nat) (user_id : Nat) :
    Except ApiError Unit × DB :=
  match findFeedback db feedback_id with
  | none => (.error .feedbackNotFound, db)
  | some feedback =>
    if feedback.created_by != user_id then (.error .notCreator, db)
    else if feedback.status == FeedbackStatus.sent then
      (.error .cannotDeleteSent, db)
    else
      let feedbacks' := removeFirst (fun f => f.id == feedback_id) db.feedbacks
      (.ok (), { db with feedbacks := feedbacks' })

/-- Developer find-or-create step of share_feedback_with_developers
(services.py lines 785-801), including the invited_by_workspace_id backfill. -/
def find_or_create_developer (db : DB) (email : String) (ws_id : Nat) :
    DB × Developer :=
  match findDeveloper db email with
  | none =>
    let d : Developer :=
      { id := db.nextId, email := email, workspace_id := none,
        invited_by_workspace_id := some ws_id }
    ({ db with developers := db.developers ++ [d], nextId := db.nextId + 1 }, d)
  | some d =>
    match d.invited_by_workspace_id with
    | none =>
      let d' := { d with invited_by_workspace_id := some ws_id }
      let developers' :=
        updateFirst (fun x => x.email == email) (fun _ => d') db.developers
      ({ db with developers := developers' }, d')
    | some _ => (db, d)

/-- Link creation step of share_feedback_with_developers (services.py lines
808-822): a FeedbackDeveloper row is added only when none exists for the
(feedback, developer) pair; a fresh row starts as pending. -/
def ensure_feedback_developer_link (db : DB) (fid did : Nat) : DB :=
  match findLink db fid did with
  | some _ => db
  | none =>
    let fresh : FeedbackDeveloper :=
      { feedback_id := fid, developer_id := did,
        status := FeedbackDeveloperStatus.pending, action_time := none }
    { db with feedback_developers := db.feedback_developers ++ [fresh] }

/-- Assignment feedback.developer_email = email (services.py lines 803-806). -/
def set_feedback_developer_email (db : DB) (fid : Nat) (email : String) : DB :=
  let feedbacks' := updateFirst (fun f => f.id == fid)
    (fun f => { f with developer_email := some email }) db.feedbacks
  { db with feedbacks := feedbacks' }

/-- The for-loop of share_feedback_with_developers (services.py lines
785-834).  fb mirrors the live ORM feedback object the loop reads
developer_email from; idx is the enumerate counter. -/
def share_loop (db : DB) (fb : Feedback) (emails : List String) (idx : Nat) : DB :=
  match emails with
  | [] => db
  | email :: rest =>
    let step := find_or_create_developer db email fb.workspace_id
    let db1 := step.1
    let developer := step.2
    let next :=
      if idx == 0 || fb.developer_email == none then
        (set_feedback_developer_email db1 fb.id email,
         { fb with developer_email := some email })
      else (db1, fb)
    let db3 := ensure_feedback_developer_link next.1 fb.id developer.id
    share_loop db3 next.2 rest (idx + 1)

/-- services.py share_feedback_with_developers (lines 759-839): 404 on a
missing feedback, 403 unless the caller created it; marks the feedback sent
and runs the per-email loop.  The returned list stands for developer_urls
(URL construction lives in the SMTP collaborator, outside this model). -/
def share_feedback_with_developers (db : DB) (feedback_id : Nat)
    (emails : List String) (user_id : Nat) :
    Except ApiError (List String) × DB :=
  match findFeedback db feedback_id with
  | none => (.error .feedbackNotFound, db)
  | some feedback =>
    if feedback.created_by != user_id then (.error .notCreator, db)
    else
      let fb1 := { feedback with status := FeedbackStatus.sent }
      let feedbacks' :=
        updateFirst (fun f => f.id == feedback_id) (fun _ => fb1) db.feedbacks
      let db1 := { db with feedbacks := feedbacks' }
      (.ok emails, share_loop db1 fb1 emails 0)

/-- The enum constructor FeedbackDeveloperStatus(action): accepts exactly the
declared values pending, acknowledged and unclear, raising ValueError on
anything else. -/
def feedback_developer_status_of_string (action : String) :
    Option FeedbackDeveloperStatus :=
  if action == "pending" then some FeedbackDeveloperStatus.pending
  else if action == "acknowledged" then some FeedbackDeveloperStatus.acknowledged
  else if action == "unclear" then some FeedbackDeveloperStatus.unclear
  else none

/-- services.py handle_developer_action (lines 871-896): 404 when the
developer or the link is missing; an action accepted by the enum constructor
is written to the link together with datetime.now(Asia/Kolkata); any other
action string raises 400 with the store untouched. -/
def handle_developer_action (db : DB) (feedback_id : Nat)
    (email action : String) (now : Time) : Except ApiError Unit × DB :=
  match findDeveloper db email with
  | none => (.error .developerNotFound, db)
  | some developer =>
    match findLink db feedback_id developer.id with
    | none => (.error .developerNotLinked, db)
    | some _ =>
      match feedback_developer_status_of_string action with
      | none => (.error .invalidAction, db)
      | some st =>
        let links' := updateFirst
          (fun l => l.feedback_id == feedback_id && l.developer_id == developer.id)
          (fun l =>
            { l with
              status := st
              action_time := some (now + IST_OFFSET_MINUTES) })
          db.feedback_developers
        (.ok (), { db with feedback_developers := links' })

/-- services.py get_all_feedbacks_by_workspace (lines 313-347): 404 on a
missing workspace; with user_id none every feedback row of the workspace is
returned; with a user_id, non-owners must be collaborators and are narrowed
to rows covered by a FeedbackAccess grant. -/
def get_all_feedbacks_by_workspace (db : DB) (workspace_id : Nat)
    (user_id : Option Nat) : Except ApiError (List Feedback) :=
  match findWorkspace db workspace_id with
  | none => .error .workspaceNotFound
  | some workspace =>
    let feedbacks := db.feedbacks.filter (fun f => f.workspace_id == workspace_id)
    match user_id with
    | none => .ok feedbacks
    | some uid =>
      if workspace.owner_id == uid then .ok feedbacks
      else
        match db.collaborators.find? (fun c =>
            c.workspace_id == workspace_id && c.user_id == some uid) with
        | none => .error .noAccess
        | some _ =>
          let accessible_feedback_ids :=
            (db.feedback_accesses.filter (fun a => a.user_id == some uid)).map
              (fun a => a.feedback_id)
          .ok (feedbacks.filter (fun f => accessible_feedback_ids.contains f.id))

/-- Route GET /feedback/all (routes.py lines 461-469): checks the workspace
exists and calls get_all_feedbacks_by_workspace with db and workspace_id
only, so user_id takes its default value of none. -/
def list_all_feedbacks_by_workspace (db : DB) (workspace_id : Nat) :
    Except ApiError (List Feedback) :=
  match findWorkspace db workspace_id with
  | none => .error .workspaceNotFound
  | some _ => get_all_feedbacks_by_workspace db workspace_id none

/-! ### Infrastructure lemmas about the store primitives -/

theorem updateFirst_of_find?_none {α : Type} {p : α → Bool} {f : α → α}
    {l : List α} (h : l.find? p = none) : updateFirst p f l = l := by
  induction l with
  | nil => rfl
  | cons x xs ih =>
    cases hx : p x with
    | true => simp [List.find?_cons_of_pos _ hx] at h
    | false =>
      rw [List.find?_cons_of_neg _ (by simp [hx])] at h
      simp [updateFirst, hx, ih h]

theorem find?_updateFirst_self {α : Type} {p : α → Bool} {f : α → α}
    {l : List α} {x : α} (h : l.find? p = some x) (hf : p (f x) = true) :
    (updateFirst p f l).find? p = some (f x) := by
  induction l with
  | nil => simp at h
  | cons y ys ih =>
    cases hy : p y with
    | true =>
      rw [List.find?_cons_of_pos _ hy] at h
      cases h
      simp [updateFirst, hy, List.find?_cons_of_pos _ hf]
    | false =>
      rw [List.find?_cons_of_neg _ (by simp [hy])] at h
      simp [updateFirst, hy, List.find?_cons_of_neg _ (by simp [hy] : ¬ p y = true), ih h]

theorem filter_updateFirst_of_pres {α : Type} {p q : α → Bool} {f : α → α}
    {l : List α} (hq : ∀ a, q (f a) = q a) :
    ((updateFirst p f l).filter q).length = (l.filter q).length := by
  induction l with
  | nil => rfl
  | cons x xs ih =>
    cases hx : p x with
    | true =>
      simp only [updateFirst, hx, if_pos]
      by_cases hqx : q x = true
      · simp [List.filter_cons, hqx, hq x]
      · simp only [Bool.not_eq_true] at hqx
        simp [List.filter_cons, hqx, hq x]
    | false =>
      simp only [updateFirst, hx, if_neg, Bool.false_eq_true, not_false_iff]
      by_cases hqx : q x = true
      · simp [List.filter_cons, hqx, ih]
      · simp only [Bool.not_eq_true] at hqx
        simp [List.filter_cons, hqx, ih]

theorem filter_removeFirst_length {α : Type} {p : α → Bool} {l : List α} {x : α}
    (h : l.find? p = some x) :
    ((removeFirst p l).filter p).length + 1 = (l.filter p).length := by
  induction l with
  | nil => simp at h
  | cons y ys ih =>
    cases hy : p y with
    | true => simp [removeFirst, hy, List.filter_cons]
    | false =>
      rw [List.find?_cons_of_neg _ (by simp [hy])] at h
      simp [removeFirst, hy, List.filter_cons, ih h]

theorem find?_eq_none_of_filter_nil {α : Type} {p : α → Bool} {l : List α}
    (h : (l.filter p).length = 0) : l.find? p = none := by
  rw [List.find?_eq_none]
  intro x hx hpx
  have : x ∈ l.filter p := List.mem_filter.mpr ⟨hx, hpx⟩
  rw [List.length_eq_zero] at h
  rw [h] at this
  simp at this

/-- The record produced by a failed code comparison at time now: attempts is
incremented and, at the attempt limit, locked_until is set 30 minutes ahead. -/
def wrong_attempt_record (rec : OTP_Tbl) (now : Time) : OTP_Tbl :=
  { rec with
    attempts := rec.attempts + 1
    locked_until := if MAX_OTP_ATTEMPTS ≤ rec.attempts + 1 then some (now + LOCK_DURATION_MINUTES) else rec.locked_until }

/-! ### Inversion lemmas for the shared OTP precheck -/

theorem otp_precheck_of_no_record {db : DB} {now : Time} {email : String}
    {otp : Nat} (h : findOtp db email = none) :
    otp_precheck db now email otp = (.error .noOtpRequest, db) := by
  simp [otp_precheck, h]

theorem otp_precheck_locked {db : DB} {now : Time} {email : String} {otp : Nat}
    {rec : OTP_Tbl} (hrec : findOtp db email = some rec)
    (hl : isLockedAt rec now = true) :
    otp_precheck db now email otp = (.error .locked, db) := by
  simp [otp_precheck, hrec, hl]

theorem otp_precheck_expired {db : DB} {now : Time} {email : String} {otp : Nat}
    {rec : OTP_Tbl} (hrec : findOtp db email = some rec)
    (hl : isLockedAt rec now = false)
    (he : rec.created_at + OTP_VALIDITY_MINUTES < now) :
    otp_precheck db now email otp =
      (.error .otpExpired,
       { db with otps := removeFirst (fun r => r.email == email) db.otps }) := by
  simp [otp_precheck, hrec, hl, he]

theorem otp_precheck_wrong {db : DB} {now : Time} {email : String} {w : Nat}
    {rec : OTP_Tbl} (hrec : findOtp db email = some rec)
    (hl : isLockedAt rec now = false)
    (he : ¬ rec.created_at + OTP_VALIDITY_MINUTES < now)
    (hw : checkpw w rec.otp_code = false) :
    otp_precheck db now email w =
      (.error .incorrectOtp,
       { db with otps := updateFirst (fun r => r.email == email) (fun _ => wrong_attempt_record rec now) db.otps }) := by
  simp [otp_precheck, hrec, hl, he, hw, wrong_attempt_record]

theorem otp_precheck_match {db : DB} {now : Time} {email : String} {otp : Nat}
    {rec : OTP_Tbl} (hrec : findOtp db email = some rec)
    (hl : isLockedAt rec now = false)
    (he : ¬ rec.created_at + OTP_VALIDITY_MINUTES < now)
    (hw : checkpw otp rec.otp_code = true) :
    otp_precheck db now email otp = (.ok rec, db) := by
  simp [otp_precheck, hrec, hl, he, hw]

theorem signup_verify_of_precheck_error {db db2 : DB} {now : Time}
    {email : String} {otp : Nat} {e : ApiError}
    (h : otp_precheck db now email otp = (.error e, db2)) :
    signup_verify db now email otp = (.error e, db2) := by
  simp [signup_verify, h]

theorem signin_verify_of_precheck_error {db db2 : DB} {now : Time}
    {email : String} {otp : Nat} {e : ApiError}
    (h : otp_precheck db now email otp = (.error e, db2)) :
    signin_verify db now email otp = (.error e, db2) := by
  simp [signin_verify, h]

theorem resultOk_signup_verify {db : DB} {now : Time} {email : String}
    {otp : Nat} :
    resultOk (signup_verify db now email otp).1 =
      resultOk (otp_precheck db now email otp).1 := by
  unfold signup_verify
  rcases h : otp_precheck db now email otp with ⟨r, db'⟩
  cases r with
  | error e => simp [resultOk]
  | ok rec =>
    cases hu : findUser db' email with
    | none => simp [hu, resultOk]
    | some u => simp [hu, resultOk]

theorem otp_precheck_ok_inv {db db2 : DB} {now : Time} {email : String}
    {otp : Nat} {rec' : OTP_Tbl}
    (h : otp_precheck db now email otp = (.ok rec', db2)) :
    db2 = db ∧ findOtp db email = some rec' ∧
      checkpw otp rec'.otp_code = true ∧ isLockedAt rec' now = false ∧
      ¬ rec'.created_at + OTP_VALIDITY_MINUTES < now := by
  unfold otp_precheck at h
  cases hf : findOtp db email with
  | none => rw [hf] at h; simp at h
  | some rec =>
    rw [hf] at h
    by_cases hl : isLockedAt rec now
    · simp [hl] at h
    · by_cases he : rec.created_at + OTP_VALIDITY_MINUTES < now
      · simp [hl, he] at h
      · by_cases hw : checkpw otp rec.otp_code
        · simp only [hl, he, hw, Bool.not_true, Bool.false_eq_true,
            if_false, if_neg, not_false_eq_true, Prod.mk.injEq,
            Except.ok.injEq] at h
          obtain ⟨h1, h2⟩ := h
          subst h1
          subst h2
          exact ⟨rfl, rfl, hw, by simpa using hl, he⟩
        · simp [hl, he, hw] at h

theorem otp_precheck_ok_iff {db : DB} {now : Time} {email : String}
    {otp : Nat} {rec : OTP_Tbl} {c s : Nat}
    (hrec : findOtp db email = some rec)
    (hhash : rec.otp_code = StoredCode.hashed c s) :
    resultOk (otp_precheck db now email otp).1 = true ↔
      (otp = c ∧ now ≤ rec.created_at + OTP_VALIDITY_MINUTES ∧
        isLockedAt rec now = false) := by
  by_cases hl : isLockedAt rec now
  · rw [otp_precheck_locked hrec hl]
    simp [resultOk, hl]
  · by_cases he : rec.created_at + OTP_VALIDITY_MINUTES < now
    · rw [otp_precheck_expired hrec (by simpa using hl) he]
      simp only [resultOk, Bool.false_eq_true, false_iff]
      rintro ⟨-, hle, -⟩
      exact Nat.lt_irrefl _ (Nat.lt_of_lt_of_le he hle)
    · by_cases hw : checkpw otp rec.otp_code
      · rw [otp_precheck_match hrec (by simpa using hl) he hw]
        rw [hhash] at hw
        simp only [checkpw] at hw
        simp [resultOk, Nat.not_lt.mp he, hl, beq_iff_eq.mp hw]
      · rw [otp_precheck_wrong hrec (by simpa using hl) he
          (by simpa using hw)]
        rw [hhash] at hw
        simp only [checkpw] at hw
        simp only [resultOk, Bool.false_eq_true, false_iff]
        intro hc
        exact hw (by simp [hc.1])

theorem resultOk_signin_verify {db : DB} {now : Time} {email : String}
    {otp : Nat} :
    resultOk (signin_verify db now email otp).1 =
      (resultOk (otp_precheck db now email otp).1 &&
        (findUser db email).isSome) := by
  unfold signin_verify
  rcases h : otp_precheck db now email otp with ⟨r, db2⟩
  cases r with
  | error e => simp [resultOk]
  | ok rec =>
    obtain ⟨hdb, -, -, -, -⟩ := otp_precheck_ok_inv h
    rw [hdb]
    cases hu : findUser db email with
    | none => simp [hu, resultOk]
    | some u => simp [hu, resultOk]

/-- Number of OTP rows stored for an email. -/
def countOtp (db : DB) (email : String) : Nat :=
  (db.otps.filter (fun r => r.email == email)).length

/-! ### Example stores used by witnesses and counterexamples -/

/-- The empty store. -/
def emptyDB : DB :=
  { users := [], otps := [], collaborators := [], workspaces := [],
    feedbacks := [], developers := [], feedback_developers := [],
    feedback_accesses := [], nextId := 1 }

/-- Shorthand for a feedback row with empty optional attachments. -/
def fbRow (i creator ws : Nat) (st : FeedbackStatus) : Feedback :=
  { id := i, name := "f", created_by := creator, status := st, url := none,
    screenshot_url := none, recording_url := none,
    voice_recording_url := none, message := none, developer_email := none,
    workspace_id := ws }

/-- The fresh OTP record inserted by the signup request route. -/
def fresh_signup_record (now : Time) (email full_name : String)
    (otp salt : Nat) : OTP_Tbl :=
  { email := email, otp_code := StoredCode.hashed otp salt,
    full_name := some full_name, created_at := now, attempts := 0,
    resend_count := 1, locked_until := none }

/-! ### Claim C9 -/

theorem signup_request_fresh_record {db : DB} {now : Time}
    {email full_name : String} {otp salt : Nat}
    (hu : findUser db email = none) :
    (signup_request db now email full_name otp salt).1 = .ok () ∧
    (signup_request db now email full_name otp salt).2.otps.filter
        (fun r => r.email == email) =
      [fresh_signup_record now email full_name otp salt] := by
  refine ⟨by simp [signup_request, hu], ?_⟩
  simp only [signup_request, hu]
  rw [List.filter_append, List.filter_filter]
  simp [fresh_signup_record]

/-- Claim C9: a successful signup OTP request deletes every existing OTP
record for the email and leaves exactly one fresh record with the bcrypt
hash of the new code, attempts 0, resend_count 1 and no lockout, no matter
what the previous record held (so an active lockout or exhausted resend
counter is erased). -/
theorem C9_signup_request_fresh (db : DB) (now : Time)
    (email full_name : String) (otp salt : Nat)
    (hu : findUser db email = none) :
    (signup_request db now email full_name otp salt).1 = .ok () ∧
    (signup_request db now email full_name otp salt).2.otps.filter
        (fun r => r.email == email) =
      [fresh_signup_record now email full_name otp salt] :=
  signup_request_fresh_record hu

/-- Store with a locked, resend-exhausted OTP record and no user. -/
def exC9 : DB :=
  { emptyDB with otps :=
      [{ email := "a@b", otp_code := StoredCode.hashed 111111 1,
         full_name := some "Old", created_at := 0, attempts := 5,
         resend_count := 3, locked_until := some 100 }] }

/-- Witness for C9: the signup request at time 50 (inside the old lockout
window) still succeeds and resets the record. -/
theorem C9_witness :
    (signup_request exC9 50 "a@b" "New" 222222 2).1 = .ok () ∧
    (signup_request exC9 50 "a@b" "New" 222222 2).2.otps.filter
        (fun r => r.email == "a@b") =
      [fresh_signup_record 50 "a@b" "New" 222222 2] :=
  C9_signup_request_fresh exC9 50 "a@b" "New" 222222 2 (by decide)

/-! ### Claim C10 -/

/-- Claim C10: called with user_id none (as the public listing route does),
get_all_feedbacks_by_workspace returns every feedback row of an existing
workspace, with no ownership, collaborator or FeedbackAccess filtering; and
the route delegates exactly to that call. -/
theorem C10_public_listing (db : DB) (wid : Nat) (w : Workspace)
    (hw : findWorkspace db wid = some w) :
    get_all_feedbacks_by_workspace db wid none =
      .ok (db.feedbacks.filter (fun f => f.workspace_id == wid)) ∧
    list_all_feedbacks_by_workspace db wid =
      get_all_feedbacks_by_workspace db wid none := by
  constructor
  · simp [get_all_feedbacks_by_workspace, hw]
  · simp [list_all_feedbacks_by_workspace, hw]

/-- Store with one workspace owned by user 1, a foreign-owner feedback, a
sent feedback, a feedback of another workspace and no access grants. -/
def exC10 : DB :=
  { emptyDB with
    workspaces := [{ id := 1, owner_id := 1 }]
    feedbacks := [fbRow 10 1 1 FeedbackStatus.draft,
                  fbRow 11 2 1 FeedbackStatus.sent,
                  fbRow 12 1 2 FeedbackStatus.draft] }

/-- Witness for C10: the public listing of workspace 1 returns both of its
rows, including the one created by user 2 and the sent one. -/
theorem C10_witness :
    get_all_feedbacks_by_workspace exC10 1 none =
      .ok [fbRow 10 1 1 FeedbackStatus.draft,
           fbRow 11 2 1 FeedbackStatus.sent] ∧
    list_all_feedbacks_by_workspace exC10 1 =
      get_all_feedbacks_by_workspace exC10 1 none := by
  have h := C10_public_listing exC10 1 { id := 1, owner_id := 1 } (by decide)
  exact ⟨by rw [h.1]; rfl, h.2⟩

/-! ### Claim C1 -/

/-- A live, unlocked OTP record created at time 0 for an email with no rows
in the users table. -/
def exC1rec : OTP_Tbl :=
  { email := "e@x", otp_code := StoredCode.hashed 111111 1, full_name := none,
    created_at := 0, attempts := 0, resend_count := 1, locked_until := none }

/-- Store holding only exC1rec. -/
def exC1 : DB := { emptyDB with otps := [exC1rec] }

/-- Counterexample to C1 as stated: at time 0 the record for e@x is live,
unlocked and the submitted code matches the stored hash, yet the signin
verify operation does not succeed - it fails with the 404 "User does not
exist" because no User row carries that email (and the record is kept). -/
theorem C1_counterexample :
    findOtp exC1 "e@x" = some exC1rec ∧
    checkpw 111111 exC1rec.otp_code = true ∧
    (0 : Time) ≤ exC1rec.created_at + OTP_VALIDITY_MINUTES ∧
    isLockedAt exC1rec 0 = false ∧
    signin_verify exC1 0 "e@x" 111111 = (.error .userDoesNotExist, exC1) :=
  ⟨rfl, rfl, Nat.zero_le _, rfl, rfl⟩

/-- Claim C1 (amended): with no record both verify operations fail with
NotFound; with a live record storing a bcrypt hash, signup verify succeeds
iff the code matches, now is at most created_at + 5 minutes and the record
is not locked, while signin verify succeeds iff additionally a User row with
the email exists; past the 5-minute window (and not locked) both fail with
Expired and delete the record. -/
theorem C1_verify_characterization (db : DB) (now : Time) (email : String)
    (code : Nat) :
    (findOtp db email = none →
      signup_verify db now email code = (.error .noOtpRequest, db) ∧
      signin_verify db now email code = (.error .noOtpRequest, db)) ∧
    (∀ rec c s, findOtp db email = some rec →
      rec.otp_code = StoredCode.hashed c s →
      (resultOk (signup_verify db now email code).1 = true ↔
        (code = c ∧ now ≤ rec.created_at + OTP_VALIDITY_MINUTES ∧
          isLockedAt rec now = false)) ∧
      (resultOk (signin_verify db now email code).1 = true ↔
        (code = c ∧ now ≤ rec.created_at + OTP_VALIDITY_MINUTES ∧
          isLockedAt rec now = false ∧ (findUser db email).isSome = true)) ∧
      (isLockedAt rec now = false →
        rec.created_at + OTP_VALIDITY_MINUTES < now →
        (signup_verify db now email code).1 = .error .otpExpired ∧
        countOtp (signup_verify db now email code).2 email + 1 =
          countOtp db email ∧
        (signin_verify db now email code).1 = .error .otpExpired ∧
        countOtp (signin_verify db now email code).2 email + 1 =
          countOtp db email)) := by
  refine ⟨?_, ?_⟩
  · intro hnone
    have hp := @otp_precheck_of_no_record db now email code hnone
    exact ⟨signup_verify_of_precheck_error hp, signin_verify_of_precheck_error hp⟩
  · intro rec c s hrec hhash
    have hrec' : db.otps.find? (fun r => r.email == email) = some rec := hrec
    refine ⟨?_, ?_, ?_⟩
    · rw [resultOk_signup_verify]
      exact otp_precheck_ok_iff hrec hhash
    · rw [resultOk_signin_verify, Bool.and_eq_true,
        otp_precheck_ok_iff hrec hhash]
      tauto
    · intro hl he
      have hp := @otp_precheck_expired db now email code rec hrec hl he
      have h1 := signup_verify_of_precheck_error hp
      have h2 := signin_verify_of_precheck_error hp
      have hcount := filter_removeFirst_length hrec'
      rw [h1, h2]
      exact ⟨rfl, hcount, rfl, hcount⟩

/-- Witness for the amended C1 at a concrete input: on exC1 the signup
verify succeeds with the matching code while signin verify does not (no
user row exists). -/
theorem C1_witness :
    resultOk (signup_verify exC1 0 "e@x" 111111).1 = true ∧
    resultOk (signin_verify exC1 0 "e@x" 111111).1 = false := by
  have h := (C1_verify_characterization exC1 0 "e@x" 111111).2
    exC1rec 111111 1 rfl rfl
  constructor
  · exact h.1.mpr ⟨rfl, Nat.zero_le _, rfl⟩
  · rw [Bool.eq_false_iff]
    intro htrue
    obtain ⟨-, -, -, hsome⟩ := h.2.1.mp htrue
    exact absurd hsome (by decide)

/-! ### Claim C2 -/

/-- A sequence of verify attempts: each pair is the time of the attempt and
the submitted code, executed through the signup verify route. -/
def verify_attempts (db : DB) (email : String) : List (Time × Nat) → DB
  | [] => db
  | (t, w) :: rest => verify_attempts (signup_verify db t email w).2 email rest

theorem wrong_attempt_step {db : DB} {now : Time} {email : String} {w : Nat}
    {rec : OTP_Tbl} {c s : Nat}
    (hrec : findOtp db email = some rec)
    (hhash : rec.otp_code = StoredCode.hashed c s)
    (hnl : rec.locked_until = none)
    (ht : now ≤ rec.created_at + OTP_VALIDITY_MINUTES)
    (hw : w ≠ c) :
    (signup_verify db now email w).1 = .error .incorrectOtp ∧
    (signin_verify db now email w).1 = .error .incorrectOtp ∧
    (signin_verify db now email w).2 = (signup_verify db now email w).2 ∧
    findOtp (signup_verify db now email w).2 email =
      some (wrong_attempt_record rec now) := by
  have hl : isLockedAt rec now = false := by simp [isLockedAt, hnl]
  have he : ¬ rec.created_at + OTP_VALIDITY_MINUTES < now := Nat.not_lt.mpr ht
  have hw' : checkpw w rec.otp_code = false := by
    simp [checkpw, hhash]
    exact hw
  have hp := @otp_precheck_wrong db now email w rec hrec hl he hw'
  have hrec' : db.otps.find? (fun r => r.email == email) = some rec := hrec
  refine ⟨?_, ?_, ?_, ?_⟩
  · rw [signup_verify_of_precheck_error hp]
  · rw [signin_verify_of_precheck_error hp]
  · rw [signup_verify_of_precheck_error hp, signin_verify_of_precheck_error hp]
  · rw [signup_verify_of_precheck_error hp]
    have hpres : ((fun r => r.email == email) (wrong_attempt_record rec now)) = true := by
      have := List.find?_some hrec'
      simpa [wrong_attempt_record] using this
    simpa [findOtp] using find?_updateFirst_self hrec' hpres

/-- Claim C2: starting from a live, unlocked record with zero attempts and a
stored bcrypt hash, five verify attempts with wrong codes (each inside the
validity window) leave the record with attempts 5 and locked_until set to 30
minutes after the fifth attempt, and every verify call of either flow within
that window fails with Locked - whatever code is submitted, including the
correct one - leaving the store unchanged. -/
theorem C2_five_wrong_attempts_lock (db : DB) (email : String)
    (rec : OTP_Tbl) (c s w1 w2 w3 w4 w5 : Nat) (t1 t2 t3 t4 t5 : Time)
    (hrec : findOtp db email = some rec)
    (hhash : rec.otp_code = StoredCode.hashed c s)
    (h0 : rec.attempts = 0) (hnl : rec.locked_until = none)
    (ht1 : t1 ≤ rec.created_at + OTP_VALIDITY_MINUTES)
    (ht2 : t2 ≤ rec.created_at + OTP_VALIDITY_MINUTES)
    (ht3 : t3 ≤ rec.created_at + OTP_VALIDITY_MINUTES)
    (ht4 : t4 ≤ rec.created_at + OTP_VALIDITY_MINUTES)
    (ht5 : t5 ≤ rec.created_at + OTP_VALIDITY_MINUTES)
    (hw1 : w1 ≠ c) (hw2 : w2 ≠ c) (hw3 : w3 ≠ c) (hw4 : w4 ≠ c)
    (hw5 : w5 ≠ c) :
    ∃ rec5, findOtp (verify_attempts db email
        [(t1, w1), (t2, w2), (t3, w3), (t4, w4), (t5, w5)]) email = some rec5 ∧
      rec5.attempts = 5 ∧
      rec5.locked_until = some (t5 + LOCK_DURATION_MINUTES) ∧
      (∀ now code, now < t5 + LOCK_DURATION_MINUTES →
        signup_verify (verify_attempts db email
            [(t1, w1), (t2, w2), (t3, w3), (t4, w4), (t5, w5)]) now email code =
          (.error .locked, verify_attempts db email
            [(t1, w1), (t2, w2), (t3, w3), (t4, w4), (t5, w5)]) ∧
        signin_verify (verify_attempts db email
            [(t1, w1), (t2, w2), (t3, w3), (t4, w4), (t5, w5)]) now email code =
          (.error .locked, verify_attempts db email
            [(t1, w1), (t2, w2), (t3, w3), (t4, w4), (t5, w5)])) := by
  obtain ⟨-, -, -, h1⟩ := wrong_attempt_step hrec hhash hnl ht1 hw1
  obtain ⟨-, -, -, h2⟩ := wrong_attempt_step h1 hhash
    (by simp [wrong_attempt_record, h0, hnl, MAX_OTP_ATTEMPTS]) ht2 hw2
  obtain ⟨-, -, -, h3⟩ := wrong_attempt_step h2 hhash
    (by simp [wrong_attempt_record, h0, hnl, MAX_OTP_ATTEMPTS]) ht3 hw3
  obtain ⟨-, -, -, h4⟩ := wrong_attempt_step h3 hhash
    (by simp [wrong_attempt_record, h0, hnl, MAX_OTP_ATTEMPTS]) ht4 hw4
  obtain ⟨-, -, -, h5⟩ := wrong_attempt_step h4 hhash
    (by simp [wrong_attempt_record, h0, hnl, MAX_OTP_ATTEMPTS]) ht5 hw5
  have h5' : findOtp (verify_attempts db email
      [(t1, w1), (t2, w2), (t3, w3), (t4, w4), (t5, w5)]) email =
      some (wrong_attempt_record (wrong_attempt_record (wrong_attempt_record
        (wrong_attempt_record (wrong_attempt_record rec t1) t2) t3) t4) t5) := by
    simp only [verify_attempts]
    exact h5
  have l5 : (wrong_attempt_record (wrong_attempt_record (wrong_attempt_record
      (wrong_attempt_record (wrong_attempt_record rec t1) t2) t3) t4) t5).locked_until =
      some (t5 + LOCK_DURATION_MINUTES) := by
    simp [wrong_attempt_record, h0, hnl, MAX_OTP_ATTEMPTS]
  refine ⟨wrong_attempt_record (wrong_attempt_record (wrong_attempt_record
    (wrong_attempt_record (wrong_attempt_record rec t1) t2) t3) t4) t5,
    h5', ?_, l5, ?_⟩
  · simp [wrong_attempt_record, h0]
  · intro now code hn
    have hlock : isLockedAt (wrong_attempt_record (wrong_attempt_record
        (wrong_attempt_record (wrong_attempt_record
          (wrong_attempt_record rec t1) t2) t3) t4) t5) now = true := by
      simp [isLockedAt, l5, hn]
    refine ⟨signup_verify_of_precheck_error ?_, signin_verify_of_precheck_error ?_⟩ <;>
      exact otp_precheck_locked h5' hlock

/-- A fresh, unlocked record for the C2 witness. -/
def exC2rec : OTP_Tbl :=
  { email := "e2@x", otp_code := StoredCode.hashed 111111 7, full_name := none,
    created_at := 0, attempts := 0, resend_count := 1, locked_until := none }

/-- Store holding only exC2rec. -/
def exC2 : DB := { emptyDB with otps := [exC2rec] }

/-- Witness for C2: five wrong attempts with code 9 on exC2 lock the record
until minute 32, and every verify inside the window fails with Locked. -/
theorem C2_witness :
    ∃ rec5, findOtp (verify_attempts exC2 "e2@x"
        [(1, 9), (1, 9), (1, 9), (1, 9), (2, 9)]) "e2@x" = some rec5 ∧
      rec5.attempts = 5 ∧
      rec5.locked_until = some (2 + LOCK_DURATION_MINUTES) ∧
      (∀ now code, now < 2 + LOCK_DURATION_MINUTES →
        signup_verify (verify_attempts exC2 "e2@x"
            [(1, 9), (1, 9), (1, 9), (1, 9), (2, 9)]) now "e2@x" code =
          (.error .locked, verify_attempts exC2 "e2@x"
            [(1, 9), (1, 9), (1, 9), (1, 9), (2, 9)]) ∧
        signin_verify (verify_attempts exC2 "e2@x"
            [(1, 9), (1, 9), (1, 9), (1, 9), (2, 9)]) now "e2@x" code =
          (.error .locked, verify_attempts exC2 "e2@x"
            [(1, 9), (1, 9), (1, 9), (1, 9), (2, 9)])) :=
  C2_five_wrong_attempts_lock exC2 "e2@x" exC2rec 111111 7 9 9 9 9 9 1 1 1 1 2
    rfl rfl rfl rfl (by decide) (by decide) (by decide) (by decide) (by decide)
    (by decide) (by decide) (by decide) (by decide) (by decide)

/-! ### Claim C3 -/

theorem find?_append_of_none {α : Type} {p : α → Bool} {l1 l2 : List α}
    (h : l1.find? p = none) : (l1 ++ l2).find? p = l2.find? p := by
  induction l1 with
  | nil => rfl
  | cons x xs ih =>
    cases hx : p x with
    | true => simp [List.find?_cons_of_pos _ hx] at h
    | false =>
      rw [List.find?_cons_of_neg _ (by simp [hx])] at h
      simpa [List.find?_cons_of_neg _ (by simp [hx] : ¬ p x = true)] using ih h

/-- The fresh OTP record inserted by the signin request route. -/
def fresh_signin_record (now : Time) (email : String) (otp salt : Nat) : OTP_Tbl :=
  { email := email, otp_code := StoredCode.hashed otp salt, full_name := none,
    created_at := now, attempts := 0, resend_count := 1, locked_until := none }

theorem signin_request_user_new {db : DB} {now : Time} {email : String}
    {otp salt : Nat} {u : User}
    (hu : findUser db email = some u) (h0 : findOtp db email = none) :
    (signin_request db now email otp salt).1 = .ok () ∧
    findUser (signin_request db now email otp salt).2 email = some u ∧
    findOtp (signin_request db now email otp salt).2 email =
      some (fresh_signin_record now email otp salt) := by
  have h0' : db.otps.find? (fun r => r.email == email) = none := h0
  refine ⟨?_, ?_, ?_⟩
  · simp [signin_request, hu, signin_issue_otp, h0]
  · simp only [signin_request, hu, signin_issue_otp, h0]
    exact hu
  · simp only [signin_request, hu, signin_issue_otp, h0]
    show (db.otps ++ [fresh_signin_record now email otp salt]).find?
      (fun r => r.email == email) = _
    rw [find?_append_of_none h0']
    simp [fresh_signin_record]

theorem signin_request_user_refresh {db : DB} {now : Time} {email : String}
    {otp salt : Nat} {u : User} {rec : OTP_Tbl}
    (hu : findUser db email = some u) (hrec : findOtp db email = some rec)
    (hlt : rec.resend_count < MAX_OTP_RESEND) :
    (signin_request db now email otp salt).1 = .ok () ∧
    findUser (signin_request db now email otp salt).2 email = some u ∧
    findOtp (signin_request db now email otp salt).2 email =
      some { rec with otp_code := StoredCode.hashed otp salt, resend_count := rec.resend_count + 1, created_at := now } := by
  have hrec' : db.otps.find? (fun r => r.email == email) = some rec := hrec
  have hnle : ¬ MAX_OTP_RESEND ≤ rec.resend_count := Nat.not_le.mpr hlt
  have hpres : ((fun r => r.email == email)
      { rec with otp_code := StoredCode.hashed otp salt, resend_count := rec.resend_count + 1, created_at := now }) = true := by
    simpa using List.find?_some hrec'
  refine ⟨?_, ?_, ?_⟩
  · simp [signin_request, hu, signin_issue_otp, hrec, hnle]
  · simp only [signin_request, hu, signin_issue_otp, hrec, hnle, if_neg,
      not_false_eq_true]
    exact hu
  · simp only [signin_request, hu, signin_issue_otp, hrec, hnle, if_neg,
      not_false_eq_true]
    exact find?_updateFirst_self hrec' hpres

theorem signin_request_limit {db : DB} {now : Time} {email : String}
    {otp salt : Nat} {u : User} {rec : OTP_Tbl}
    (hu : findUser db email = some u) (hrec : findOtp db email = some rec)
    (hge : MAX_OTP_RESEND ≤ rec.resend_count) :
    signin_request db now email otp salt = (.error .resendLimit, db) := by
  simp [signin_request, hu, signin_issue_otp, hrec, hge]

/-- Store with a live record whose resend counter is exhausted and no user. -/
def exC3rec : OTP_Tbl :=
  { email := "c3@x", otp_code := StoredCode.hashed 111111 1,
    full_name := some "N", created_at := 0, attempts := 0, resend_count := 3,
    locked_until := none }

/-- Store holding only exC3rec. -/
def exC3 : DB := { emptyDB with otps := [exC3rec] }

/-- Counterexample to C3 as stated: the email has a live record whose resend
counter has reached the limit 3, yet the signup request route succeeds - it
deletes the exhausted record and installs a fresh one with resend_count 1
instead of failing with RateLimited. -/
theorem C3_counterexample :
    findUser exC3 "c3@x" = none ∧
    findOtp exC3 "c3@x" = some exC3rec ∧
    exC3rec.resend_count = 3 ∧
    (signup_request exC3 10 "c3@x" "N" 222222 2).1 = .ok () ∧
    (signup_request exC3 10 "c3@x" "N" 222222 2).2.otps.filter
        (fun r => r.email == "c3@x") =
      [fresh_signup_record 10 "c3@x" "N" 222222 2] :=
  ⟨rfl, rfl, rfl, rfl, rfl⟩

/-- Claim C3 (amended): the signin request with a live record whose resend
counter has reached 3 fails with RateLimited (leaving the OTP table
unchanged) whenever the email resolves to a user or to an invitation, and a
fourth consecutive signin request without an intervening verify fails with
RateLimited; the signup request never rate-limits - whatever the existing
record holds, it succeeds after wiping it. -/
theorem C3_request_rate_limit :
    (∀ db now email otp salt rec u, findUser db email = some u →
      findOtp db email = some rec → MAX_OTP_RESEND ≤ rec.resend_count →
      signin_request db now email otp salt = (.error .resendLimit, db)) ∧
    (∀ db now email full_name otp salt, findUser db email = none →
      (signup_request db now email full_name otp salt).1 = .ok ()) ∧
    (∀ db email u n1 n2 n3 n4 o1 s1 o2 s2 o3 s3 o4 s4,
      findUser db email = some u → findOtp db email = none →
      (signin_request db n1 email o1 s1).1 = .ok () ∧
      (signin_request (signin_request db n1 email o1 s1).2
        n2 email o2 s2).1 = .ok () ∧
      (signin_request (signin_request (signin_request db n1 email o1 s1).2
        n2 email o2 s2).2 n3 email o3 s3).1 = .ok () ∧
      (signin_request (signin_request (signin_request (signin_request
        db n1 email o1 s1).2 n2 email o2 s2).2 n3 email o3 s3).2
        n4 email o4 s4).1 = .error .resendLimit) := by
  refine ⟨?_, ?_, ?_⟩
  · intro db now email otp salt rec u hu hrec hge
    exact signin_request_limit hu hrec hge
  · intro db now email full_name otp salt hu
    simp [signup_request, hu]
  · intro db email u n1 n2 n3 n4 o1 s1 o2 s2 o3 s3 o4 s4 hu h0
    obtain ⟨c1, hu1, hr1⟩ := signin_request_user_new hu h0
    obtain ⟨c2, hu2, hr2⟩ := signin_request_user_refresh hu1 hr1
      (by simp [fresh_signin_record, MAX_OTP_RESEND])
    obtain ⟨c3, hu3, hr3⟩ := signin_request_user_refresh hu2 hr2
      (by simp [fresh_signin_record, MAX_OTP_RESEND])
    refine ⟨c1, c2, c3, ?_⟩
    rw [signin_request_limit hu3 hr3
      (by simp [fresh_signin_record, MAX_OTP_RESEND])]

/-- Store with a single onboarded user and no OTP record. -/
def exC3u : DB :=
  { emptyDB with users := [{ id := 1, email := "u@x", full_name := some "U", onboarded := true }] }

/-- Witness for the amended C3: three signin requests for u@x succeed, the
fourth fails with RateLimited, and the signup request on the exhausted
record of exC3 succeeds. -/
theorem C3_witness :
    (signin_request exC3u 0 "u@x" 5 6).1 = .ok () ∧
    (signin_request (signin_request exC3u 0 "u@x" 5 6).2 1 "u@x" 5 6).1 =
      .ok () ∧
    (signin_request (signin_request (signin_request exC3u 0 "u@x" 5 6).2
      1 "u@x" 5 6).2 2 "u@x" 5 6).1 = .ok () ∧
    (signin_request (signin_request (signin_request (signin_request
      exC3u 0 "u@x" 5 6).2 1 "u@x" 5 6).2 2 "u@x" 5 6).2
      3 "u@x" 5 6).1 = .error .resendLimit ∧
    (signup_request exC3 10 "c3@x" "N" 222222 2).1 = .ok () := by
  have h := C3_request_rate_limit
  have hchain := h.2.2 exC3u "u@x"
    { id := 1, email := "u@x", full_name := some "U", onboarded := true }
    0 1 2 3 5 6 5 6 5 6 5 6 rfl rfl
  exact ⟨hchain.1, hchain.2.1, hchain.2.2.1, hchain.2.2.2,
    h.2.1 exC3 10 "c3@x" "N" 222222 2 rfl⟩

/-! ### Claim C4 -/

/-- The plaintext record the service-layer request_signup_otp persists when
no record exists yet. -/
def plain_signup_record (now : Time) (email full_name : String) (otp : Nat) :
    OTP_Tbl :=
  { email := email, otp_code := StoredCode.plain otp,
    full_name := some full_name, created_at := now, attempts := 0,
    resend_count := 1, locked_until := none }

/-- Counterexample to C4 as stated: the service-layer request_signup_otp
(cited by the claim) succeeds and leaves the otp_code column holding the
plaintext generated code, not a salted hash. -/
theorem C4_counterexample :
    (request_signup_otp emptyDB 0 "p@x" "P" 123456).1 = .ok () ∧
    findOtp (request_signup_otp emptyDB 0 "p@x" "P" 123456).2 "p@x" =
      some (plain_signup_record 0 "p@x" "P" 123456) ∧
    (plain_signup_record 0 "p@x" "P" 123456).otp_code =
      StoredCode.plain 123456 :=
  ⟨rfl, rfl, rfl⟩

theorem signin_issue_otp_hashed {db : DB} {now : Time} {email : String}
    {otp salt : Nat}
    (hok : (signin_issue_otp db now email otp salt).1 = .ok ()) :
    ∃ rec', findOtp (signin_issue_otp db now email otp salt).2 email =
        some rec' ∧ rec'.otp_code = StoredCode.hashed otp salt := by
  cases hrec : findOtp db email with
  | none =>
    have h0' : db.otps.find? (fun r => r.email == email) = none := hrec
    refine ⟨fresh_signin_record now email otp salt, ?_, rfl⟩
    simp only [signin_issue_otp, hrec]
    show (db.otps ++ [fresh_signin_record now email otp salt]).find?
      (fun r => r.email == email) = _
    rw [find?_append_of_none h0']
    simp [fresh_signin_record]
  | some rec =>
    have hrec' : db.otps.find? (fun r => r.email == email) = some rec := hrec
    by_cases hge : MAX_OTP_RESEND ≤ rec.resend_count
    · simp [signin_issue_otp, hrec, hge, resultOk] at hok
    · refine ⟨{ rec with otp_code := StoredCode.hashed otp salt, resend_count := rec.resend_count + 1, created_at := now }, ?_, rfl⟩
      simp only [signin_issue_otp, hrec, hge, if_neg, not_false_eq_true]
      exact find?_updateFirst_self hrec'
        (by simpa using List.find?_some hrec')

/-- Claim C4 (amended): the route-level OTP request operations persist only
bcrypt hashes: every record a successful signup request leaves for the email
stores the hash of the generated code under the fresh salt, and a successful
signin request (create or refresh) leaves the record for the email storing
that hash; the unreachable service-layer helpers request_signup_otp and
request_signin_otp are the ones that store the plaintext code. -/
theorem C4_route_requests_store_hashes :
    (∀ db now email full_name otp salt,
      (signup_request db now email full_name otp salt).1 = .ok () →
      ∀ r, r ∈ (signup_request db now email full_name otp salt).2.otps.filter
          (fun x => x.email == email) →
        r.otp_code = StoredCode.hashed otp salt) ∧
    (∀ db now email otp salt,
      (signin_request db now email otp salt).1 = .ok () →
      ∃ rec', findOtp (signin_request db now email otp salt).2 email =
          some rec' ∧ rec'.otp_code = StoredCode.hashed otp salt) := by
  constructor
  · intro db now email full_name otp salt hok r hr
    cases hu : findUser db email with
    | some u => simp [signup_request, hu] at hok
    | none =>
      rw [(signup_request_fresh_record hu).2] at hr
      simp only [List.mem_singleton] at hr
      subst hr
      rfl
  · intro db now email otp salt hok
    cases hu : findUser db email with
    | some u =>
      have hok' : (signin_issue_otp db now email otp salt).1 = .ok () := by
        simpa [signin_request, hu] using hok
      simpa [signin_request, hu] using signin_issue_otp_hashed hok'
    | none =>
      cases hc : db.collaborators.find? (fun c => c.user_email == email) with
      | none => simp [signin_request, hu, hc] at hok
      | some c =>
        simp only [signin_request, hu, hc] at hok ⊢
        exact signin_issue_otp_hashed hok

/-- Witness for the amended C4 at concrete inputs: both routes leave bcrypt
hashes in the store. -/
theorem C4_witness :
    (∀ r, r ∈ (signup_request emptyDB 0 "w@x" "W" 123456 9).2.otps.filter
        (fun x => x.email == "w@x") →
      r.otp_code = StoredCode.hashed 123456 9) ∧
    (∃ rec', findOtp (signin_request exC3u 0 "u@x" 123456 9).2 "u@x" =
        some rec' ∧ rec'.otp_code = StoredCode.hashed 123456 9) := by
  have h := C4_route_requests_store_hashes
  exact ⟨h.1 emptyDB 0 "w@x" "W" 123456 9 rfl,
    h.2 exC3u 0 "u@x" 123456 9 rfl⟩

/-! ### Claim C5 -/

theorem otp_precheck_users (db : DB) (now : Time) (email : String)
    (otp : Nat) : (otp_precheck db now email otp).2.users = db.users := by
  unfold otp_precheck
  cases hf : findOtp db email with
  | none => rfl
  | some rec =>
    dsimp only
    split_ifs <;> rfl

/-- Claim C5: when a User with the email already exists, signup verify never
adds a user row (on any path), and a successful verification returns a token
for the existing user after deleting exactly one pending OTP record. -/
theorem C5_idempotent_signup (db : DB) (now : Time) (email : String)
    (code : Nat) (u : User) (hu : findUser db email = some u) :
    (signup_verify db now email code).2.users = db.users ∧
    (∀ r, (signup_verify db now email code).1 = .ok r →
      r = SignupVerifyOk.alreadyRegistered u.id ∧
      countOtp (signup_verify db now email code).2 email + 1 =
        countOtp db email) := by
  have husers := otp_precheck_users db now email code
  unfold signup_verify
  rcases hp : otp_precheck db now email code with ⟨res, db2⟩
  have hdb2users : db2.users = db.users := by rw [hp] at husers; exact husers
  cases res with
  | error e =>
    refine ⟨hdb2users, ?_⟩
    intro r hr
    simp at hr
  | ok rec2 =>
    obtain ⟨hdbeq, hfind, -, -, -⟩ := otp_precheck_ok_inv hp
    subst hdbeq
    simp only [hu]
    refine ⟨trivial, ?_⟩
    intro r hr
    simp only [Except.ok.injEq] at hr
    subst hr
    exact ⟨rfl, filter_removeFirst_length hfind⟩

/-- An existing user for the C5 witness. -/
def exC5u : User := { id := 7, email := "e5@x", full_name := some "E", onboarded := true }

/-- A live OTP record for the C5 witness. -/
def exC5rec : OTP_Tbl :=
  { email := "e5@x", otp_code := StoredCode.hashed 111111 3, full_name := some "E",
    created_at := 0, attempts := 0, resend_count := 1, locked_until := none }

/-- Store with the user and the pending record. -/
def exC5 : DB := { emptyDB with users := [exC5u], otps := [exC5rec] }

/-- Witness for C5: on exC5 the users table is unchanged by signup verify,
and the successful result is a token for existing user 7 with the record
deleted. -/
theorem C5_witness :
    (signup_verify exC5 0 "e5@x" 111111).2.users = exC5.users ∧
    (∀ r, (signup_verify exC5 0 "e5@x" 111111).1 = .ok r →
      r = SignupVerifyOk.alreadyRegistered exC5u.id ∧
      countOtp (signup_verify exC5 0 "e5@x" 111111).2 "e5@x" + 1 =
        countOtp exC5 "e5@x") :=
  C5_idempotent_signup exC5 0 "e5@x" 111111 exC5u rfl

/-! ### Claim C8 -/

/-- A developer linked to feedback 1 for the C8 store. -/
def exC8dev : Developer := { id := 2, email := "d@x", workspace_id := none, invited_by_workspace_id := some 1 }

/-- The existing acknowledged link of the C8 store. -/
def exC8link : FeedbackDeveloper := { feedback_id := 1, developer_id := 2, status := FeedbackDeveloperStatus.acknowledged, action_time := none }

/-- Store with the developer and the link. -/
def exC8 : DB :=
  { emptyDB with developers := [exC8dev], feedback_developers := [exC8link] }

/-- Counterexample to C8 as stated: the action string "pending" is neither
acknowledged nor unclear, yet handle_developer_action accepts it (the enum
constructor admits every declared value), resets the link status to pending
and stamps action_time. -/
theorem C8_counterexample :
    findDeveloper exC8 "d@x" = some exC8dev ∧
    findLink exC8 1 2 = some exC8link ∧
    (handle_developer_action exC8 1 "d@x" "pending" 0).1 = .ok () ∧
    findLink (handle_developer_action exC8 1 "d@x" "pending" 0).2 1 2 =
      some { feedback_id := 1, developer_id := 2, status := FeedbackDeveloperStatus.pending, action_time := some (0 + IST_OFFSET_MINUTES) } :=
  ⟨rfl, rfl, rfl, rfl⟩

/-- Claim C8 (amended): handle_developer_action fails with NotFound when no
developer with the email or no (feedback, developer) link exists; it accepts
exactly the enum values pending, acknowledged and unclear, setting the link
status to the given action and stamping action_time with the current time in
Indian Standard Time; any other action string fails with InvalidState and
leaves the store unchanged. -/
theorem C8_developer_action_characterization (db : DB) (fid : Nat)
    (email action : String) (now : Time) :
    (findDeveloper db email = none →
      handle_developer_action db fid email action now =
        (.error .developerNotFound, db)) ∧
    (∀ dev, findDeveloper db email = some dev → findLink db fid dev.id = none →
      handle_developer_action db fid email action now =
        (.error .developerNotLinked, db)) ∧
    (∀ dev link, findDeveloper db email = some dev →
      findLink db fid dev.id = some link →
      (feedback_developer_status_of_string action = none →
        handle_developer_action db fid email action now =
          (.error .invalidAction, db)) ∧
      (∀ st, feedback_developer_status_of_string action = some st →
        (handle_developer_action db fid email action now).1 = .ok () ∧
        findLink (handle_developer_action db fid email action now).2 fid dev.id =
          some { link with status := st, action_time := some (now + IST_OFFSET_MINUTES) })) ∧
    ((feedback_developer_status_of_string action).isSome = true ↔
      (action = "pending" ∨ action = "acknowledged" ∨ action = "unclear")) := by
  refine ⟨?_, ?_, ?_, ?_⟩
  · intro h
    simp [handle_developer_action, h]
  · intro dev hdev hlink
    simp [handle_developer_action, hdev, hlink]
  · intro dev link hdev hlink
    have hlink' : db.feedback_developers.find?
        (fun l => l.feedback_id == fid && l.developer_id == dev.id) =
        some link := hlink
    constructor
    · intro hnone
      simp [handle_developer_action, hdev, hlink, hnone]
    · intro st hst
      constructor
      · simp [handle_developer_action, hdev, hlink, hst]
      · simp only [handle_developer_action, hdev, hlink, hst]
        exact find?_updateFirst_self hlink'
          (by simpa using List.find?_some hlink')
  · unfold feedback_developer_status_of_string
    by_cases h1 : action = "pending"
    · simp [h1]
    · by_cases h2 : action = "acknowledged"
      · simp [h1, h2]
      · by_cases h3 : action = "unclear"
        · simp [h1, h2, h3]
        · simp [h1, h2, h3]

/-- Witness for the amended C8: the acknowledged action on the concrete
store succeeds and stamps the IST time. -/
theorem C8_witness :
    (handle_developer_action exC8 1 "d@x" "acknowledged" 5).1 = .ok () ∧
    findLink (handle_developer_action exC8 1 "d@x" "acknowledged" 5).2 1
        exC8dev.id =
      some { exC8link with status := FeedbackDeveloperStatus.acknowledged, action_time := some (5 + IST_OFFSET_MINUTES) } := by
  have h := (C8_developer_action_characterization exC8 1 "d@x"
    "acknowledged" 5).2.2.1 exC8dev exC8link rfl rfl
  exact h.2 FeedbackDeveloperStatus.acknowledged rfl

/-! ### Claim C6 -/

theorem find?_updateFirst_pres {α : Type} {p q : α → Bool} {f : α → α}
    {l : List α} {x : α} (hx : l.find? q = some x)
    (hq : ∀ a, q (f a) = q a) :
    ∃ x', (updateFirst p f l).find? q = some x' ∧ (x' = x ∨ x' = f x) := by
  induction l generalizing x with
  | nil => simp at hx
  | cons y ys ih =>
    cases hp : p y with
    | true =>
      cases hqy : q y with
      | true =>
        rw [List.find?_cons_of_pos _ hqy] at hx
        injection hx with hxy
        subst hxy
        refine ⟨f y, ?_, Or.inr rfl⟩
        simp only [updateFirst, hp, if_pos]
        rw [List.find?_cons_of_pos _ (by rw [hq]; exact hqy)]
      | false =>
        rw [List.find?_cons_of_neg _ (by simp [hqy])] at hx
        refine ⟨x, ?_, Or.inl rfl⟩
        simp only [updateFirst, hp, if_pos]
        rw [List.find?_cons_of_neg _ (by simp [hq, hqy]), hx]
    | false =>
      simp only [updateFirst, hp, Bool.false_eq_true, if_neg,
        not_false_eq_true]
      cases hqy : q y with
      | true =>
        rw [List.find?_cons_of_pos _ hqy] at hx
        injection hx with hxy
        subst hxy
        exact ⟨y, List.find?_cons_of_pos _ hqy, Or.inl rfl⟩
      | false =>
        rw [List.find?_cons_of_neg _ (by simp [hqy])] at hx
        obtain ⟨x', hx', hor⟩ := ih hx
        exact ⟨x', by rw [List.find?_cons_of_neg _ (by simp [hqy])]; exact hx',
          hor⟩

theorem find_or_create_developer_feedbacks (db : DB) (email : String)
    (ws_id : Nat) : (find_or_create_developer db email ws_id).1.feedbacks =
      db.feedbacks := by
  unfold find_or_create_developer
  cases hd : findDeveloper db email with
  | none => rfl
  | some d =>
    cases hw : d.invited_by_workspace_id with
    | none => simp [hw]
    | some v => simp [hw]

theorem ensure_feedback_developer_link_feedbacks (db : DB) (fid did : Nat) :
    (ensure_feedback_developer_link db fid did).feedbacks = db.feedbacks := by
  unfold ensure_feedback_developer_link
  cases h : findLink db fid did with
  | none => rfl
  | some l => rfl

theorem share_loop_status (emails : List String) :
    ∀ (db : DB) (fb : Feedback) (idx fid : Nat) (x : Feedback),
    findFeedback db fid = some x →
    ∃ x', findFeedback (share_loop db fb emails idx) fid = some x' ∧
      x'.status = x.status := by
  induction emails with
  | nil =>
    intro db fb idx fid x hx
    exact ⟨x, hx, rfl⟩
  | cons email rest ih =>
    intro db fb idx fid x hx
    have hfb1 : findFeedback (find_or_create_developer db email
        fb.workspace_id).1 fid = some x := by
      show (find_or_create_developer db email fb.workspace_id).1.feedbacks.find?
        (fun f => f.id == fid) = some x
      rw [find_or_create_developer_feedbacks]
      exact hx
    cases hcond : (idx == 0 || fb.developer_email == none) with
    | true =>
      simp only [share_loop, hcond, if_pos]
      obtain ⟨x', hx', hor⟩ := @find?_updateFirst_pres Feedback
        (fun f => f.id == fb.id) (fun f => f.id == fid)
        (fun f => { f with developer_email := some email })
        (find_or_create_developer db email fb.workspace_id).1.feedbacks x
        hfb1 (fun a => rfl)
      have hx'st : x'.status = x.status := by
        rcases hor with h | h <;> subst h <;> rfl
      have hens : findFeedback (ensure_feedback_developer_link
          (set_feedback_developer_email
            (find_or_create_developer db email fb.workspace_id).1 fb.id email)
          fb.id (find_or_create_developer db email fb.workspace_id).2.id)
          fid = some x' := by
        show (ensure_feedback_developer_link _ _ _).feedbacks.find? _ = _
        rw [ensure_feedback_developer_link_feedbacks]
        exact hx'
      obtain ⟨x'', hx'', h2⟩ := ih (ensure_feedback_developer_link
          (set_feedback_developer_email
            (find_or_create_developer db email fb.workspace_id).1 fb.id email)
          fb.id (find_or_create_developer db email fb.workspace_id).2.id)
        { fb with developer_email := some email } (idx + 1) fid x' hens
      exact ⟨x'', hx'', by rw [h2, hx'st]⟩
    | false =>
      simp only [share_loop, hcond, Bool.false_eq_true, if_neg,
        not_false_eq_true]
      have hens : findFeedback (ensure_feedback_developer_link
          (find_or_create_developer db email fb.workspace_id).1 fb.id
          (find_or_create_developer db email fb.workspace_id).2.id)
          fid = some x := by
        show (ensure_feedback_developer_link _ _ _).feedbacks.find? _ = _
        rw [ensure_feedback_developer_link_feedbacks]
        exact hfb1
      exact ih _ fb (idx + 1) fid x hens

/-- Claim C6 (amended): sharing by the creator succeeds and leaves the
feedback in status sent; on sent feedback every update and delete fails with
the store unchanged - with InvalidState for a caller passing the preceding
authorization checks (for update: workspace owner or collaborator; for
delete: the creator), and with the authorization error itself otherwise. -/
theorem C6_sent_feedback_immutable :
    (∀ db fid emails uid fb, findFeedback db fid = some fb →
      fb.created_by = uid →
      (share_feedback_with_developers db fid emails uid).1 = .ok emails ∧
      ∃ fb', findFeedback
          (share_feedback_with_developers db fid emails uid).2 fid =
          some fb' ∧ fb'.status = FeedbackStatus.sent) ∧
    (∀ db fid data uid fb, findFeedback db fid = some fb →
      fb.status = FeedbackStatus.sent →
      (update_feedback db fid data uid).2 = db ∧
      resultOk (update_feedback db fid data uid).1 = false ∧
      (∀ w, findWorkspace db fb.workspace_id = some w →
        (w.owner_id = uid ∨ (db.collaborators.find? (fun c =>
          c.workspace_id == fb.workspace_id &&
          c.user_id == some uid)).isSome = true) →
        (update_feedback db fid data uid).1 = .error .cannotUpdateSent)) ∧
    (∀ db fid uid fb, findFeedback db fid = some fb →
      fb.status = FeedbackStatus.sent →
      (delete_feedback db fid uid).2 = db ∧
      resultOk (delete_feedback db fid uid).1 = false ∧
      (fb.created_by = uid →
        (delete_feedback db fid uid).1 = .error .cannotDeleteSent)) := by
  refine ⟨?_, ?_, ?_⟩
  · intro db fid emails uid fb hfb hcr
    have hfb' : db.feedbacks.find? (fun f => f.id == fid) = some fb := hfb
    have hbne : (fb.created_by != uid) = false := by simp [hcr]
    constructor
    · simp [share_feedback_with_developers, hfb, hbne]
    · have hp1 : ((fun f => f.id == fid)
          { fb with status := FeedbackStatus.sent }) = true := by
        simpa using List.find?_some hfb'
      have hsome := @find?_updateFirst_self Feedback (fun f => f.id == fid)
        (fun _ => { fb with status := FeedbackStatus.sent }) db.feedbacks fb
        hfb' hp1
      simp only [share_feedback_with_developers, hfb, hbne,
        Bool.false_eq_true, if_neg, not_false_eq_true]
      obtain ⟨fb', hfind, hst⟩ := share_loop_status emails
        { db with feedbacks := updateFirst (fun f => f.id == fid) (fun _ => { fb with status := FeedbackStatus.sent }) db.feedbacks }
        { fb with status := FeedbackStatus.sent } 0 fid
        { fb with status := FeedbackStatus.sent } hsome
      exact ⟨fb', hfind, hst⟩
  · intro db fid data uid fb hfb hsent
    cases hw : findWorkspace db fb.workspace_id with
    | none =>
      refine ⟨by simp [update_feedback, hfb, hw], by simp [update_feedback, hfb, hw, resultOk], ?_⟩
      intro w hww
      exact Option.noConfusion hww
    | some w =>
      by_cases hauth : (w.owner_id != uid && (db.collaborators.find? (fun c =>
          c.workspace_id == fb.workspace_id &&
          c.user_id == some uid)).isNone) = true
      · refine ⟨by simp [update_feedback, hfb, hw, hauth], by simp [update_feedback, hfb, hw, hauth, resultOk], ?_⟩
        intro w' hww hor
        injection hww with hww
        subst hww
        rw [Bool.and_eq_true] at hauth
        obtain ⟨h1, h2⟩ := hauth
        rcases hor with hown | hsome
        · exact absurd hown (by simpa using h1)
        · rw [Option.isNone_iff_eq_none] at h2
          rw [h2] at hsome
          simp at hsome
      · have hsent' : (fb.status == FeedbackStatus.sent) = true := by
          simp [hsent]
        refine ⟨by simp [update_feedback, hfb, hw, hauth, hsent'],
          by simp [update_feedback, hfb, hw, hauth, hsent', resultOk], ?_⟩
        intro w' hww hor
        simp [update_feedback, hfb, hw, hauth, hsent']
  · intro db fid uid fb hfb hsent
    by_cases hcr : (fb.created_by != uid) = true
    · refine ⟨by simp [delete_feedback, hfb, hcr], by simp [delete_feedback, hfb, hcr, resultOk], ?_⟩
      intro heq
      exact absurd heq (by simpa using hcr)
    · have hsent' : (fb.status == FeedbackStatus.sent) = true := by
        simp [hsent]
      refine ⟨by simp [delete_feedback, hfb, hcr, hsent'],
        by simp [delete_feedback, hfb, hcr, hsent', resultOk], ?_⟩
      intro heq
      simp [delete_feedback, hfb, hcr, hsent']

/-- Store with workspace 1 (owner 1) and a sent feedback created by user 1. -/
def exC6 : DB :=
  { emptyDB with
    workspaces := [{ id := 1, owner_id := 1 }]
    feedbacks := [fbRow 1 1 1 FeedbackStatus.sent] }

/-- The empty update payload. -/
def exUpd : FeedbackUpdate := {}

/-- Counterexample to C6 as stated: on sent feedback 1 a caller (user 2) who
is neither creator nor workspace member gets Forbidden errors (noAccess on
update, notCreator on delete), not InvalidState, so the failure kind is not
InvalidState regardless of caller identity. -/
theorem C6_counterexample :
    (fbRow 1 1 1 FeedbackStatus.sent).status = FeedbackStatus.sent ∧
    (update_feedback exC6 1 exUpd 2).1 = .error .noAccess ∧
    ApiError.noAccess ≠ ApiError.cannotUpdateSent ∧
    (delete_feedback exC6 1 2).1 = .error .notCreator ∧
    ApiError.notCreator ≠ ApiError.cannotDeleteSent :=
  ⟨rfl, rfl, by decide, rfl, by decide⟩

/-- Witness for the amended C6 on the concrete store: sharing by the creator
succeeds leaving status sent, and the creator's own update and delete fail
with InvalidState. -/
theorem C6_witness :
    (share_feedback_with_developers exC6 1 ["d6@x"] 1).1 = .ok ["d6@x"] ∧
    (∃ fb', findFeedback
        (share_feedback_with_developers exC6 1 ["d6@x"] 1).2 1 =
        some fb' ∧ fb'.status = FeedbackStatus.sent) ∧
    (update_feedback exC6 1 exUpd 1).1 = .error .cannotUpdateSent ∧
    (delete_feedback exC6 1 1).1 = .error .cannotDeleteSent := by
  have h := C6_sent_feedback_immutable
  have ha := h.1 exC6 1 ["d6@x"] 1 (fbRow 1 1 1 FeedbackStatus.sent) rfl rfl
  have hb := h.2.1 exC6 1 exUpd 1 (fbRow 1 1 1 FeedbackStatus.sent) rfl rfl
  have hc := h.2.2 exC6 1 1 (fbRow 1 1 1 FeedbackStatus.sent) rfl rfl
  exact ⟨ha.1, ha.2, hb.2.2 { id := 1, owner_id := 1 } rfl (Or.inl rfl),
    hc.2.2 rfl⟩

/-! ### Claim C7 -/

/-- Number of FeedbackDeveloper rows for a (feedback, developer) pair. -/
def countLinks (links : List FeedbackDeveloper) (fid did : Nat) : Nat :=
  (links.filter (fun l => l.feedback_id == fid && l.developer_id == did)).length

/-- The fresh pending link created by the share loop. -/
def pendingLink (fid did : Nat) : FeedbackDeveloper :=
  { feedback_id := fid, developer_id := did,
    status := FeedbackDeveloperStatus.pending, action_time := none }

theorem countLinks_pos_of_find? {links : List FeedbackDeveloper}
    {fid did : Nat} {x : FeedbackDeveloper}
    (h : links.find? (fun l => l.feedback_id == fid && l.developer_id == did) =
      some x) : 1 ≤ countLinks links fid did := by
  have hmem := List.mem_of_find?_eq_some h
  have hp := List.find?_some h
  have : x ∈ links.filter (fun l => l.feedback_id == fid && l.developer_id == did) :=
    List.mem_filter.mpr ⟨hmem, hp⟩
  have := List.length_pos.mpr (List.ne_nil_of_mem this)
  simpa [countLinks] using this

theorem countLinks_zero_of_find?_none {links : List FeedbackDeveloper}
    {fid did : Nat}
    (h : links.find? (fun l => l.feedback_id == fid && l.developer_id == did) =
      none) : countLinks links fid did = 0 := by
  rw [List.find?_eq_none] at h
  have : links.filter (fun l => l.feedback_id == fid && l.developer_id == did) = [] := by
    rw [List.filter_eq_nil_iff]
    intro a ha
    exact h a ha
  simp [countLinks, this]

theorem ensure_link_developers (db : DB) (fid did : Nat) :
    (ensure_feedback_developer_link db fid did).developers = db.developers := by
  unfold ensure_feedback_developer_link
  cases h : findLink db fid did <;> rfl

theorem countLinks_ensure_le (db : DB) (fid did f' d' : Nat) :
    countLinks (ensure_feedback_developer_link db fid did).feedback_developers
      f' d' ≤ max (countLinks db.feedback_developers f' d') 1 := by
  unfold ensure_feedback_developer_link
  cases h : findLink db fid did with
  | some l => exact Nat.le_max_left _ _
  | none =>
    show countLinks (db.feedback_developers ++ [pendingLink fid did]) f' d' ≤ _
    have hz := countLinks_zero_of_find?_none h
    simp only [countLinks, List.filter_append]
    by_cases hp : ((fun l => l.feedback_id == f' && l.developer_id == d')
        (pendingLink fid did)) = true
    · have hpair : fid = f' ∧ did = d' := by
        simpa [pendingLink] using hp
      obtain ⟨rfl, rfl⟩ := hpair
      simp only [countLinks] at hz
      simp [List.filter_cons, hp, hz]
    · simp only [Bool.not_eq_true] at hp
      simp [List.filter_cons, hp, Nat.le_max_left]

theorem countLinks_ensure_ge_self (db : DB) (fid did : Nat) :
    1 ≤ countLinks
      (ensure_feedback_developer_link db fid did).feedback_developers fid did := by
  unfold ensure_feedback_developer_link
  cases h : findLink db fid did with
  | some l => exact countLinks_pos_of_find? h
  | none =>
    show 1 ≤ countLinks (db.feedback_developers ++ [pendingLink fid did]) fid did
    simp [countLinks, List.filter_append, List.filter_cons, pendingLink]

theorem countLinks_ensure_mono (db : DB) (fid did f' d' : Nat) :
    countLinks db.feedback_developers f' d' ≤
      countLinks (ensure_feedback_developer_link db fid did).feedback_developers
        f' d' := by
  unfold ensure_feedback_developer_link
  cases h : findLink db fid did with
  | some l => exact Nat.le_refl _
  | none =>
    show _ ≤ countLinks (db.feedback_developers ++ [pendingLink fid did]) f' d'
    simp [countLinks, List.filter_append]

theorem ensure_link_mem (db : DB) (fid did : Nat) :
    ∀ l, l ∈ (ensure_feedback_developer_link db fid did).feedback_developers →
      l ∈ db.feedback_developers ∨
        (l.status = FeedbackDeveloperStatus.pending ∧ l.feedback_id = fid) := by
  intro l hl
  unfold ensure_feedback_developer_link at hl
  cases h : findLink db fid did with
  | some x =>
    rw [h] at hl
    exact Or.inl hl
  | none =>
    rw [h] at hl
    rcases List.mem_append.mp hl with hm | hm
    · exact Or.inl hm
    · rw [List.mem_singleton] at hm
      subst hm
      exact Or.inr ⟨rfl, rfl⟩

theorem mem_updateFirst_of_find? {α : Type} {p : α → Bool} {l : List α}
    {x : α} (h : l.find? p = some x) (y : α) :
    y ∈ updateFirst p (fun _ => y) l := by
  induction l with
  | nil => simp at h
  | cons z zs ih =>
    cases hz : p z with
    | true => simp [updateFirst, hz]
    | false =>
      rw [List.find?_cons_of_neg _ (by simp [hz])] at h
      simp only [updateFirst, hz, Bool.false_eq_true, if_neg,
        not_false_eq_true]
      exact List.mem_cons_of_mem z (ih h)

theorem exists_mem_updateFirst_first_match {α : Type} {p : α → Bool}
    {l : List α} {x : α} {g : α → α} (hfind : l.find? p = some x)
    (φ : α → Prop) (h : ∃ a ∈ l, φ a) (hgx : φ x → φ (g x)) :
    ∃ a ∈ updateFirst p (fun _ => g x) l, φ a := by
  induction l with
  | nil => simp at hfind
  | cons z zs ih =>
    obtain ⟨a, ha, hφ⟩ := h
    cases hz : p z with
    | true =>
      rw [List.find?_cons_of_pos _ hz] at hfind
      injection hfind with hfind
      subst hfind
      simp only [updateFirst, hz, if_pos]
      rcases List.mem_cons.mp ha with rfl | hmem
      · exact ⟨g a, List.mem_cons_self _ _, hgx hφ⟩
      · exact ⟨a, List.mem_cons_of_mem _ hmem, hφ⟩
    | false =>
      rw [List.find?_cons_of_neg _ (by simp [hz])] at hfind
      simp only [updateFirst, hz, Bool.false_eq_true, if_neg,
        not_false_eq_true]
      rcases List.mem_cons.mp ha with rfl | hmem
      · exact ⟨a, List.mem_cons_self _ _, hφ⟩
      · obtain ⟨b, hb, hbφ⟩ := ih hfind ⟨a, hmem, hφ⟩
        exact ⟨b, List.mem_cons_of_mem _ hb, hbφ⟩

theorem find_or_create_developer_links (db : DB) (email : String)
    (ws : Nat) : (find_or_create_developer db email ws).1.feedback_developers =
      db.feedback_developers := by
  unfold find_or_create_developer
  cases hd : findDeveloper db email with
  | none => rfl
  | some d =>
    cases hw : d.invited_by_workspace_id with
    | none => simp [hw]
    | some v => simp [hw]

theorem find_or_create_developer_mem (db : DB) (email : String) (ws : Nat) :
    (find_or_create_developer db email ws).2 ∈
      (find_or_create_developer db email ws).1.developers ∧
    (find_or_create_developer db email ws).2.email = email := by
  unfold find_or_create_developer
  cases hd : findDeveloper db email with
  | none =>
    constructor
    · simp
    · rfl
  | some d =>
    have hde : d.email = email := by simpa using List.find?_some hd
    cases hw : d.invited_by_workspace_id with
    | none =>
      have hd' : db.developers.find? (fun x => x.email == email) = some d := hd
      constructor
      · simp only [hw]
        exact mem_updateFirst_of_find? hd' _
      · simp [hw, hde]
    | some v =>
      constructor
      · simp only [hw]
        exact List.mem_of_find?_eq_some hd
      · simp [hw, hde]

theorem find_or_create_developer_pres (db : DB) (email : String) (ws : Nat)
    (did : Nat) (e : String)
    (h : ∃ d ∈ db.developers, d.id = did ∧ d.email = e) :
    ∃ d ∈ (find_or_create_developer db email ws).1.developers,
      d.id = did ∧ d.email = e := by
  unfold find_or_create_developer
  cases hd : findDeveloper db email with
  | none =>
    obtain ⟨d0, hd0, hφ⟩ := h
    exact ⟨d0, List.mem_append_left _ hd0, hφ⟩
  | some d =>
    cases hw : d.invited_by_workspace_id with
    | none =>
      have hd' : db.developers.find? (fun x => x.email == email) = some d := hd
      simp only [hw]
      exact @exists_mem_updateFirst_first_match Developer
        (fun x => x.email == email) db.developers d
        (fun y => { y with invited_by_workspace_id := some ws }) hd'
        (fun x => x.id = did ∧ x.email = e) h (fun hx => ⟨hx.1, hx.2⟩)
    | some v =>
      simp only [hw]
      exact h

theorem set_feedback_developer_email_links (db : DB) (fid : Nat)
    (email : String) :
    (set_feedback_developer_email db fid email).feedback_developers =
      db.feedback_developers := rfl

theorem set_feedback_developer_email_developers (db : DB) (fid : Nat)
    (email : String) :
    (set_feedback_developer_email db fid email).developers =
      db.developers := rfl

theorem share_loop_count_le (emails : List String) :
    ∀ (db : DB) (fb : Feedback) (idx f' d' : Nat),
    countLinks (share_loop db fb emails idx).feedback_developers f' d' ≤
      max (countLinks db.feedback_developers f' d') 1 := by
  induction emails with
  | nil =>
    intro db fb idx f' d'
    exact Nat.le_max_left _ _
  | cons email rest ih =>
    intro db fb idx f' d'
    cases hcond : (idx == 0 || fb.developer_email == none) with
    | true =>
      simp only [share_loop, hcond, if_pos]
      refine le_trans (ih _ _ _ _ _) ?_
      refine Nat.max_le.mpr ⟨?_, Nat.le_max_right _ _⟩
      refine le_trans (countLinks_ensure_le _ _ _ _ _) ?_
      rw [set_feedback_developer_email_links, find_or_create_developer_links]
    | false =>
      simp only [share_loop, hcond, Bool.false_eq_true, if_neg,
        not_false_eq_true]
      refine le_trans (ih _ _ _ _ _) ?_
      refine Nat.max_le.mpr ⟨?_, Nat.le_max_right _ _⟩
      refine le_trans (countLinks_ensure_le _ _ _ _ _) ?_
      rw [find_or_create_developer_links]

theorem share_loop_count_mono (emails : List String) :
    ∀ (db : DB) (fb : Feedback) (idx f' d' : Nat),
    countLinks db.feedback_developers f' d' ≤
      countLinks (share_loop db fb emails idx).feedback_developers f' d' := by
  induction emails with
  | nil =>
    intro db fb idx f' d'
    exact Nat.le_refl _
  | cons email rest ih =>
    intro db fb idx f' d'
    cases hcond : (idx == 0 || fb.developer_email == none) with
    | true =>
      simp only [share_loop, hcond, if_pos]
      refine le_trans ?_ (ih _ _ _ _ _)
      refine le_trans ?_ (countLinks_ensure_mono _ _ _ _ _)
      rw [set_feedback_developer_email_links, find_or_create_developer_links]
    | false =>
      simp only [share_loop, hcond, Bool.false_eq_true, if_neg,
        not_false_eq_true]
      refine le_trans ?_ (ih _ _ _ _ _)
      refine le_trans ?_ (countLinks_ensure_mono _ _ _ _ _)
      rw [find_or_create_developer_links]

theorem share_loop_mem (emails : List String) :
    ∀ (db : DB) (fb : Feedback) (idx : Nat),
    ∀ l, l ∈ (share_loop db fb emails idx).feedback_developers →
      l ∈ db.feedback_developers ∨
        (l.status = FeedbackDeveloperStatus.pending ∧ l.feedback_id = fb.id) := by
  induction emails with
  | nil =>
    intro db fb idx l hl
    exact Or.inl hl
  | cons email rest ih =>
    intro db fb idx l hl
    cases hcond : (idx == 0 || fb.developer_email == none) with
    | true =>
      simp only [share_loop, hcond, if_pos] at hl
      rcases ih _ _ _ l hl with hm | hp
      · rcases ensure_link_mem _ _ _ l hm with hm2 | hp2
        · rw [set_feedback_developer_email_links,
            find_or_create_developer_links] at hm2
          exact Or.inl hm2
        · exact Or.inr hp2
      · exact Or.inr hp
    | false =>
      simp only [share_loop, hcond, Bool.false_eq_true, if_neg,
        not_false_eq_true] at hl
      rcases ih _ _ _ l hl with hm | hp
      · rcases ensure_link_mem _ _ _ l hm with hm2 | hp2
        · rw [find_or_create_developer_links] at hm2
          exact Or.inl hm2
        · exact Or.inr hp2
      · exact Or.inr hp

theorem share_loop_dev_pres (emails : List String) :
    ∀ (db : DB) (fb : Feedback) (idx did : Nat) (e : String),
    (∃ d ∈ db.developers, d.id = did ∧ d.email = e) →
    ∃ d ∈ (share_loop db fb emails idx).developers, d.id = did ∧ d.email = e := by
  induction emails with
  | nil =>
    intro db fb idx did e h
    exact h
  | cons email rest ih =>
    intro db fb idx did e h
    have h1 := find_or_create_developer_pres db email fb.workspace_id did e h
    cases hcond : (idx == 0 || fb.developer_email == none) with
    | true =>
      simp only [share_loop, hcond, if_pos]
      refine ih _ _ _ _ _ ?_
      rw [ensure_link_developers, set_feedback_developer_email_developers]
      exact h1
    | false =>
      simp only [share_loop, hcond, Bool.false_eq_true, if_neg,
        not_false_eq_true]
      refine ih _ _ _ _ _ ?_
      rw [ensure_link_developers]
      exact h1

theorem share_loop_covered (emails : List String) :
    ∀ (db : DB) (fb : Feedback) (idx : Nat) (e : String), e ∈ emails →
    ∃ did, (∃ d ∈ (share_loop db fb emails idx).developers,
        d.id = did ∧ d.email = e) ∧
      1 ≤ countLinks (share_loop db fb emails idx).feedback_developers
        fb.id did := by
  induction emails with
  | nil =>
    intro db fb idx e he
    simp at he
  | cons email rest ih =>
    intro db fb idx e he
    have hmem := find_or_create_developer_mem db email fb.workspace_id
    cases hcond : (idx == 0 || fb.developer_email == none) with
    | true =>
      simp only [share_loop, hcond, if_pos]
      rcases List.mem_cons.mp he with rfl | hrest
      · refine ⟨(find_or_create_developer db e fb.workspace_id).2.id, ?_, ?_⟩
        · refine share_loop_dev_pres rest _ _ _ _ _ ?_
          rw [ensure_link_developers, set_feedback_developer_email_developers]
          exact ⟨(find_or_create_developer db e fb.workspace_id).2, hmem.1,
            rfl, hmem.2⟩
        · refine le_trans ?_ (share_loop_count_mono rest _ _ _ _ _)
          exact countLinks_ensure_ge_self _ _ _
      · exact ih _ _ _ _ hrest
    | false =>
      simp only [share_loop, hcond, Bool.false_eq_true, if_neg,
        not_false_eq_true]
      rcases List.mem_cons.mp he with rfl | hrest
      · refine ⟨(find_or_create_developer db e fb.workspace_id).2.id, ?_, ?_⟩
        · refine share_loop_dev_pres rest _ _ _ _ _ ?_
          rw [ensure_link_developers]
          exact ⟨(find_or_create_developer db e fb.workspace_id).2, hmem.1,
            rfl, hmem.2⟩
        · refine le_trans ?_ (share_loop_count_mono rest _ _ _ _ _)
          exact countLinks_ensure_ge_self _ _ _
      · exact ih _ _ _ _ hrest

theorem share_loop_created_by (emails : List String) :
    ∀ (db : DB) (fb : Feedback) (idx fid : Nat) (x : Feedback),
    findFeedback db fid = some x →
    ∃ x', findFeedback (share_loop db fb emails idx) fid = some x' ∧
      x'.created_by = x.created_by := by
  induction emails with
  | nil =>
    intro db fb idx fid x hx
    exact ⟨x, hx, rfl⟩
  | cons email rest ih =>
    intro db fb idx fid x hx
    have hfb1 : findFeedback (find_or_create_developer db email
        fb.workspace_id).1 fid = some x := by
      show (find_or_create_developer db email fb.workspace_id).1.feedbacks.find?
        (fun f => f.id == fid) = some x
      rw [find_or_create_developer_feedbacks]
      exact hx
    cases hcond : (idx == 0 || fb.developer_email == none) with
    | true =>
      simp only [share_loop, hcond, if_pos]
      obtain ⟨x', hx', hor⟩ := @find?_updateFirst_pres Feedback
        (fun f => f.id == fb.id) (fun f => f.id == fid)
        (fun f => { f with developer_email := some email })
        (find_or_create_developer db email fb.workspace_id).1.feedbacks x
        hfb1 (fun a => rfl)
      have hx'cb : x'.created_by = x.created_by := by
        rcases hor with h | h <;> subst h <;> rfl
      have hens : findFeedback (ensure_feedback_developer_link
          (set_feedback_developer_email
            (find_or_create_developer db email fb.workspace_id).1 fb.id email)
          fb.id (find_or_create_developer db email fb.workspace_id).2.id)
          fid = some x' := by
        show (ensure_feedback_developer_link _ _ _).feedbacks.find? _ = _
        rw [ensure_feedback_developer_link_feedbacks]
        exact hx'
      obtain ⟨x'', hx'', h2⟩ := ih (ensure_feedback_developer_link
          (set_feedback_developer_email
            (find_or_create_developer db email fb.workspace_id).1 fb.id email)
          fb.id (find_or_create_developer db email fb.workspace_id).2.id)
        { fb with developer_email := some email } (idx + 1) fid x' hens
      exact ⟨x'', hx'', by rw [h2, hx'cb]⟩
    | false =>
      simp only [share_loop, hcond, Bool.false_eq_true, if_neg,
        not_false_eq_true]
      have hens : findFeedback (ensure_feedback_developer_link
          (find_or_create_developer db email fb.workspace_id).1 fb.id
          (find_or_create_developer db email fb.workspace_id).2.id)
          fid = some x := by
        show (ensure_feedback_developer_link _ _ _).feedbacks.find? _ = _
        rw [ensure_feedback_developer_link_feedbacks]
        exact hfb1
      exact ih _ fb (idx + 1) fid x hens

/-- State after marking a feedback row sent (the first mutation performed by
share_feedback_with_developers). -/
def mark_sent (db : DB) (fid : Nat) (fb : Feedback) : DB :=
  { db with feedbacks := updateFirst (fun f => f.id == fid) (fun _ => { fb with status := FeedbackStatus.sent }) db.feedbacks }

theorem share_feedback_unfold {db : DB} {fid : Nat} {emails : List String}
    {uid : Nat} {fb : Feedback}
    (hfb : findFeedback db fid = some fb) (hcr : fb.created_by = uid) :
    share_feedback_with_developers db fid emails uid =
      (.ok emails, share_loop (mark_sent db fid fb)
        { fb with status := FeedbackStatus.sent } emails 0) := by
  have hbne : (fb.created_by != uid) = false := by simp [hcr]
  simp [share_feedback_with_developers, hfb, hbne, mark_sent]

theorem mark_sent_find {db : DB} {fid : Nat} {fb : Feedback}
    (hfb : findFeedback db fid = some fb) :
    findFeedback (mark_sent db fid fb) fid =
      some { fb with status := FeedbackStatus.sent } := by
  have hfb' : db.feedbacks.find? (fun f => f.id == fid) = some fb := hfb
  have hp1 : ((fun f => f.id == fid)
      { fb with status := FeedbackStatus.sent }) = true := by
    simpa using List.find?_some hfb'
  exact @find?_updateFirst_self Feedback (fun f => f.id == fid)
    (fun _ => { fb with status := FeedbackStatus.sent }) db.feedbacks fb
    hfb' hp1

/-- Claim C7: starting from a store with no links for the feedback, calling
shareWithDevelopers twice with the same email list by the creator leaves at
most one FeedbackDeveloper link per (feedback, developer) pair, exactly one
(with status pending) for each developer resolved from the email list, every
link of the feedback has status pending, and in general no pair's link count
ever exceeds max(initial count, 1) - an existing link is never duplicated. -/
theorem C7_share_idempotent (db : DB) (fid : Nat) (emails : List String)
    (uid : Nat) (fb : Feedback)
    (hfb : findFeedback db fid = some fb) (hcr : fb.created_by = uid)
    (hnone : ∀ l ∈ db.feedback_developers, l.feedback_id ≠ fid) :
    (∀ d', countLinks (share_feedback_with_developers
        (share_feedback_with_developers db fid emails uid).2 fid emails
        uid).2.feedback_developers fid d' ≤ 1) ∧
    (∀ e ∈ emails, ∃ did,
      (∃ d ∈ (share_feedback_with_developers (share_feedback_with_developers
          db fid emails uid).2 fid emails uid).2.developers,
        d.id = did ∧ d.email = e) ∧
      countLinks (share_feedback_with_developers
        (share_feedback_with_developers db fid emails uid).2 fid emails
        uid).2.feedback_developers fid did = 1) ∧
    (∀ l ∈ (share_feedback_with_developers (share_feedback_with_developers
        db fid emails uid).2 fid emails uid).2.feedback_developers,
      l.feedback_id = fid → l.status = FeedbackDeveloperStatus.pending) ∧
    (∀ f' d', countLinks (share_feedback_with_developers
        (share_feedback_with_developers db fid emails uid).2 fid emails
        uid).2.feedback_developers f' d' ≤
      max (countLinks db.feedback_developers f' d') 1) := by
  have hsh1 := @share_feedback_unfold db fid emails uid fb hfb hcr
  obtain ⟨fb1', hfb1', hcb'⟩ := share_loop_created_by emails
    (mark_sent db fid fb) { fb with status := FeedbackStatus.sent } 0 fid
    { fb with status := FeedbackStatus.sent } (mark_sent_find hfb)
  have hcr' : fb1'.created_by = uid := hcb'.trans hcr
  have hsh2 := @share_feedback_unfold (share_loop (mark_sent db fid fb)
    { fb with status := FeedbackStatus.sent } emails 0) fid emails uid fb1'
    hfb1' hcr'
  have count0 : ∀ d', countLinks db.feedback_developers fid d' = 0 := by
    intro d'
    have hnil : db.feedback_developers.filter
        (fun l => l.feedback_id == fid && l.developer_id == d') = [] := by
      rw [List.filter_eq_nil_iff]
      intro a ha
      simp only [Bool.and_eq_true, beq_iff_eq, not_and]
      intro h1 _
      exact hnone a ha h1
    simp [countLinks, hnil]
  have hle1 : ∀ f' d', countLinks (share_loop (mark_sent db fid fb)
      { fb with status := FeedbackStatus.sent } emails 0).feedback_developers
      f' d' ≤ max (countLinks db.feedback_developers f' d') 1 := by
    intro f' d'
    exact share_loop_count_le emails (mark_sent db fid fb) _ 0 f' d'
  have hfd1 : ∀ d', countLinks (share_loop (mark_sent db fid fb)
      { fb with status := FeedbackStatus.sent } emails 0).feedback_developers
      fid d' ≤ 1 := by
    intro d'
    have h := hle1 fid d'
    rw [count0 d'] at h
    simpa using h
  have hid : fb1'.id = fid := by
    have := List.find?_some (show (share_loop (mark_sent db fid fb)
      { fb with status := FeedbackStatus.sent } emails 0).feedbacks.find?
        (fun f => f.id == fid) = some fb1' from hfb1')
    simpa using this
  simp only [hsh1, hsh2]
  have hbound2 : ∀ d', countLinks (share_loop (mark_sent (share_loop
      (mark_sent db fid fb) { fb with status := FeedbackStatus.sent } emails 0)
      fid fb1') { fb1' with status := FeedbackStatus.sent } emails
      0).feedback_developers fid d' ≤ 1 := by
    intro d'
    have h2 := share_loop_count_le emails (mark_sent (share_loop
      (mark_sent db fid fb) { fb with status := FeedbackStatus.sent } emails 0)
      fid fb1') { fb1' with status := FeedbackStatus.sent } 0 fid d'
    exact le_trans h2 (Nat.max_le.mpr ⟨hfd1 d', Nat.le_refl 1⟩)
  refine ⟨hbound2, ?_, ?_, ?_⟩
  · intro e he
    obtain ⟨did, hmem, hge⟩ := share_loop_covered emails (mark_sent (share_loop
      (mark_sent db fid fb) { fb with status := FeedbackStatus.sent } emails 0)
      fid fb1') { fb1' with status := FeedbackStatus.sent } 0 e he
    have hcnt_eq : countLinks (share_loop (mark_sent (share_loop
        (mark_sent db fid fb) { fb with status := FeedbackStatus.sent } emails
        0) fid fb1') { fb1' with status := FeedbackStatus.sent } emails
        0).feedback_developers fb1'.id did =
        countLinks (share_loop (mark_sent (share_loop (mark_sent db fid fb)
        { fb with status := FeedbackStatus.sent } emails 0) fid fb1')
        { fb1' with status := FeedbackStatus.sent } emails
        0).feedback_developers fid did :=
      congrArg (fun z => countLinks (share_loop (mark_sent (share_loop
        (mark_sent db fid fb) { fb with status := FeedbackStatus.sent } emails
        0) fid fb1') { fb1' with status := FeedbackStatus.sent } emails
        0).feedback_developers z did) hid
    have hge' := le_of_le_of_eq hge hcnt_eq
    exact ⟨did, hmem, Nat.le_antisymm (hbound2 did) hge'⟩
  · intro l hl hfidl
    rcases share_loop_mem emails (mark_sent (share_loop (mark_sent db fid fb)
      { fb with status := FeedbackStatus.sent } emails 0) fid fb1')
      { fb1' with status := FeedbackStatus.sent } 0 l hl with hm | hp
    · rcases share_loop_mem emails (mark_sent db fid fb)
        { fb with status := FeedbackStatus.sent } 0 l hm with hm2 | hp2
      · exact absurd hfidl (hnone l hm2)
      · exact hp2.1
    · exact hp.1
  · intro f' d'
    have h2 := share_loop_count_le emails (mark_sent (share_loop
      (mark_sent db fid fb) { fb with status := FeedbackStatus.sent } emails 0)
      fid fb1') { fb1' with status := FeedbackStatus.sent } 0 f' d'
    exact le_trans h2 (Nat.max_le.mpr ⟨hle1 f' d', Nat.le_max_right _ _⟩)

/-- Store with workspace 2 owned by user 4 and one draft feedback (id 3)
created by user 4, with no links yet. -/
def exC7 : DB :=
  { emptyDB with
    workspaces := [{ id := 2, owner_id := 4 }]
    feedbacks := [fbRow 3 4 2 FeedbackStatus.draft] }

/-- Witness for C7: sharing feedback 3 twice with the list [a@d, b@d, a@d]
(with a duplicate) leaves at most one pending link per pair and exactly one
per listed developer. -/
theorem C7_witness :
    (∀ d', countLinks (share_feedback_with_developers
        (share_feedback_with_developers exC7 3 ["a@d", "b@d", "a@d"] 4).2 3
        ["a@d", "b@d", "a@d"] 4).2.feedback_developers 3 d' ≤ 1) ∧
    (∀ e ∈ ["a@d", "b@d", "a@d"], ∃ did,
      (∃ d ∈ (share_feedback_with_developers (share_feedback_with_developers
          exC7 3 ["a@d", "b@d", "a@d"] 4).2 3
          ["a@d", "b@d", "a@d"] 4).2.developers,
        d.id = did ∧ d.email = e) ∧
      countLinks (share_feedback_with_developers
        (share_feedback_with_developers exC7 3 ["a@d", "b@d", "a@d"] 4).2 3
        ["a@d", "b@d", "a@d"] 4).2.feedback_developers 3 did = 1) ∧
    (∀ l ∈ (share_feedback_with_developers (share_feedback_with_developers
        exC7 3 ["a@d", "b@d", "a@d"] 4).2 3
        ["a@d", "b@d", "a@d"] 4).2.feedback_developers,
      l.feedback_id = 3 → l.status = FeedbackDeveloperStatus.pending) ∧
    (∀ f' d', countLinks (share_feedback_with_developers
        (share_feedback_with_developers exC7 3 ["a@d", "b@d", "a@d"] 4).2 3
        ["a@d", "b@d", "a@d"] 4).2.feedback_developers f' d' ≤
      max (countLinks exC7.feedback_developers f' d') 1) :=
  C7_share_idempotent exC7 3 ["a@d", "b@d", "a@d"] 4
    (fbRow 3 4 2 FeedbackStatus.draft) rfl rfl (by simp [emptyDB, exC7])
